import Mathlib

/-!
# opi-cni: attach / detach orchestration

A shallow embedding of `cmd/opi/main.go`, `pkg/config/config.go`, `pkg/xpu/xpu.go` and
`pkg/types/types.go`.

* Go functions that take `*NetConf` and mutate it return the updated `NetConf`.
* Persistent and remote state is an explicit `World` that every call threads through.
* Collaborators that are not part of these four files (VF manager, address-management plugin,
  namespace library, gRPC transport, JSON decoding, host probes) are fields of an `Env`.
  Each effectful collaborator call appends an `Event` to `World.trace` and then asks the `Env`
  for its outcome, passing the trace so far, so an outcome may depend on the whole history.
* Go `error` values are sums with one constructor per `return` site.
* Not modelled, because nothing observable depends on them: closing the namespace handle and the
  gRPC connection, the 10 second deadline of a remote call (a timeout is one of the errors the
  remote call may return), the text of error messages, and output written by `fmt.Printf`.
-/

namespace OpiCni

deriving instance DecidableEq for Except

/-! ## pkg/types -/

/-- VfState represents the state of the VF. -/
structure VfState where
  HostIFName : String := ""
  SpoofChk : Bool := false
  AdminMAC : String := ""
  EffectiveMAC : String := ""
  MinTxRate : Int := 0
  MaxTxRate : Int := 0
  LinkState : Nat := 0
deriving DecidableEq, Repr

/-- The anonymous struct behind `NetConf.RuntimeConfig`. -/
structure RuntimeConf where
  Mac : String := ""
deriving DecidableEq, Repr

/-- NetConf extends the CNI `types.NetConf`; of the embedded struct the fields `CNIVersion`,
`Name`, `Type` (here `PluginType`) and `IPAM.Type` (here `IPAMType`) are kept. -/
structure NetConf where
  CNIVersion : String := ""
  Name : String := ""
  PluginType : String := ""
  IPAMType : String := ""
  OrigVfState : VfState := {}
  DPDKMode : Bool := false
  Master : String := ""
  MAC : String := ""
  LogicalBridge : String := ""
  LogicalBridges : List String := []
  PortType : String := ""
  BridgePortName : String := ""
  DeviceID : String := ""
  VFID : Int := 0
  MinTxRate : Option Int := none
  MaxTxRate : Option Int := none
  SpoofChk : String := ""
  Trust : String := ""
  LinkState : String := ""
  XpuInfraMgrConn : String := ""
  ConfigurationPath : String := ""
  PciToMacPath : String := ""
  RuntimeConfig : RuntimeConf := {}
deriving DecidableEq, Repr

/-- The part of `netlink.VfInfo` that `FillFromVfInfo` reads (`Mac` already rendered). -/
structure VfInfo where
  Mac : String
  LinkState : Nat
  MaxTxRate : Nat
  MinTxRate : Nat
  Spoofchk : Bool
deriving DecidableEq, Repr

/-- FillFromVfInfo fills attributes according to the provided `VfInfo`. -/
def VfState.FillFromVfInfo (vs : VfState) (info : VfInfo) : VfState :=
  { vs with
    AdminMAC := info.Mac
    LinkState := info.LinkState
    MaxTxRate := (info.MaxTxRate : Int)
    MinTxRate := (info.MinTxRate : Int)
    SpoofChk := info.Spoofchk }

/-! ## The remote bridge-port API (generated gRPC types) -/

/-- The gRPC status codes. -/
inductive Code where
  | OK | Canceled | Unknown | InvalidArgument | DeadlineExceeded | NotFound | AlreadyExists
  | PermissionDenied | ResourceExhausted | FailedPrecondition | Aborted | OutOfRange
  | Unimplemented | Internal | Unavailable | DataLoss | Unauthenticated
deriving DecidableEq, Repr

/-- A non-nil error returned by an RPC, with the code `status.Code` extracts from it. -/
structure RpcError where
  code : Code
  msg : String := ""
deriving DecidableEq, Repr

inductive BridgePortType where
  | UNSPECIFIED | ACCESS | TRUNK
deriving DecidableEq, Repr

inductive BPOperStatus where
  | UNSPECIFIED | UP | DOWN
deriving DecidableEq, Repr

/-- The `BridgePortSpec` message, nested in `CreateBridgePortRequest.BridgePort.Spec`. -/
structure CreateBridgePortRequest where
  MacAddress : List UInt8
  Ptype : BridgePortType
  LogicalBridges : List String
deriving DecidableEq, Repr

structure DeleteBridgePortRequest where
  Name : String
deriving DecidableEq, Repr

/-- The `BridgePort` message of a create response: `GetName()` and
`GetStatus().GetOperStatus()`. -/
structure BridgePort where
  Name : String
  OperStatus : BPOperStatus
deriving DecidableEq, Repr

/-! ## Invocation arguments, events, world -/

/-- The `skel.CmdArgs` of one invocation. -/
structure CmdArgs where
  ContainerID : String := ""
  Netns : String := ""
  IfName : String := ""
  Args : String := ""
  StdinData : String := ""
deriving DecidableEq, Repr

/-- One effectful collaborator call. -/
inductive Event where
  | getNS (path : String)
  | fillOriginalVfInfo (deviceID : String)
  | applyVFConfig (deviceID mac : String)
  | setupVF (deviceID ifName : String)
  | resetVFConfig (deviceID : String)
  | releaseVF (deviceID netns : String)
  | resetVF (deviceID : String)
  | dial (target : String)
  | createBridgePort (req : CreateBridgePortRequest)
  | deleteBridgePort (name : String)
  | ipamExecAdd (plugin : String)
  | ipamExecDel (plugin : String)
  | configureIface (ifName : String)
  | announceIPs (ifName : String)
  | saveAllocatedPCI (deviceID netns : String)
  | deleteAllocatedPCI (deviceID : String)
  | saveNetConf (path : String)
  | cleanCachedNetConf (path : String)
  | printResult (cniVersion : String)
deriving DecidableEq, Repr

/-- The state outside the process: allocation records (physical-function id to namespace path),
cached attachments (file path to stored bytes), the bridge ports the remote side is known to hold
(by name), and the log of collaborator calls. -/
structure World where
  allocs : List (String × String) := []
  cache : List (String × String) := []
  ports : List String := []
  trace : List Event := []
deriving DecidableEq, Repr

/-- Append one call to the log. -/
def World.log (w : World) (e : Event) : World :=
  { w with trace := w.trace ++ [e] }

/-- Outcome of `ns.GetNS`. -/
inductive NsOpen where
  | opened
  | pathNotExist (msg : String)
  | failed (msg : String)
deriving DecidableEq, Repr

/-- One address of an address-management result (`current.IPConfig`). -/
structure IPConfig where
  Address : String
  Interface : Option Nat := none
deriving DecidableEq, Repr

/-- The entry of `current.Result.Interfaces`. -/
structure Interface where
  Name : String
  Mac : String := ""
  Sandbox : String := ""
deriving DecidableEq, Repr

/-- The `current.Result` printed on success. -/
structure Result where
  Interfaces : List Interface := []
  IPs : List IPConfig := []
deriving DecidableEq, Repr

/-- The collaborators. Pure fields are decoders and read-only host probes; fields that take a
`List Event` are effectful calls whose outcome may depend on everything done so far. An
`Option String` outcome is a Go `error` (`none` is `nil`). -/
structure Env where
  /-- Decode JSON into a fresh `NetConf` (`json.Unmarshal`). -/
  unmarshal : String → Except String NetConf
  /-- Encode a `NetConf` (`json.Marshal`). -/
  marshal : NetConf → String
  PathExists : String → Except String Bool
  osOpen : String → Option String
  ReadAll : String → Except String String
  /-- The `MAC` key of the side-channel arguments (`types.LoadArgs`). -/
  LoadArgs : String → Except String String
  GetPfName : String → Except String String
  GetVfid : String → String → Except String Int
  /-- Returns the value and the error, both of which the caller looks at. -/
  GetVFLinkNames : String → String × Option String
  HasDpdkDriver : String → Except String Bool
  /-- A failure of the allocation store when it is asked whether an id is claimed. -/
  IsAllocatedErr : String → Option String
  RetrieveMacFromPci : String → String → Except String String
  /-- Converts the plugin result to the current version and returns its addresses. -/
  NewResultFromResult : String → Except String (List IPConfig)
  GetNS : List Event → String → NsOpen
  FillOriginalVfInfo : List Event → NetConf → Option String
  ApplyVFConfig : List Event → NetConf → Option String
  SetupVF : List Event → NetConf → String → Except String String
  ResetVFConfig : List Event → NetConf → Option String
  ReleaseVF : List Event → NetConf → String → Option String
  ResetVF : List Event → NetConf → Option String
  Dial : List Event → String → Option String
  CreateBridgePort : List Event → CreateBridgePortRequest → Except RpcError BridgePort
  DeleteBridgePort : List Event → DeleteBridgePortRequest → Option RpcError
  ExecAdd : List Event → String → String → Except String String
  ExecDel : List Event → String → String → Option String
  ConfigureIface : List Event → String → Option String
  SaveAllocatedPCIErr : List Event → String → Option String
  DeleteAllocatedPCIErr : List Event → String → Option String
  SaveNetConfErr : List Event → String → Option String
  CleanCachedNetConfErr : List Event → String → Option String
  PrintResult : List Event → Result → String → Option String

/-! ## pkg/xpu -/

/-- Why `initConnection` returned an error. -/
inductive ConnErr where
  | emptyEndpoint
  | dial (msg : String)
deriving DecidableEq, Repr

/-- The errors of `CreateBridgePort` and `DeleteBridgePort`, one per `return` site. -/
inductive XpuErr where
  | initConnection (e : ConnErr)
  | rpc (e : RpcError)
  | notUp
deriving DecidableEq, Repr

/-- initConnection initializes a connection to XPU Infra Manager. -/
def initConnection (env : Env) (conf : NetConf) (w : World) : Except ConnErr Unit × World :=
  if conf.XpuInfraMgrConn = "" then
    (.error .emptyEndpoint, w)
  else
    let w1 := w.log (.dial conf.XpuInfraMgrConn)
    match env.Dial w1.trace conf.XpuInfraMgrConn with
    | some e => (.error (.dial e), w1)
    | none => (.ok (), w1)

/-- produceCreateBridgePortRequest produces a CreateBridgePortRequest object. -/
def produceCreateBridgePortRequest (conf : NetConf) (mac : String) : CreateBridgePortRequest :=
  let typeOfPort : BridgePortType :=
    if conf.LogicalBridge ≠ "" then .ACCESS else .TRUNK
  let logicalBridges : List String :=
    if conf.LogicalBridge ≠ "" then [conf.LogicalBridge]
    else if conf.LogicalBridges.length > 0 then conf.LogicalBridges
    else []
  { MacAddress := mac.toUTF8.data.toList
    Ptype := typeOfPort
    LogicalBridges := logicalBridges }

/-- produceDeleteBridgePortRequest produces a DeleteBridgePortRequest object. -/
def produceDeleteBridgePortRequest (conf : NetConf) : DeleteBridgePortRequest :=
  { Name := conf.BridgePortName }

/-- The gRPC call `client.CreateBridgePort`: logged, answered by the remote side; a port the
remote side returns is from then on held by it. -/
def clientCreateBridgePort (env : Env) (req : CreateBridgePortRequest) (w : World) :
    Except RpcError BridgePort × World :=
  let w1 := w.log (.createBridgePort req)
  match env.CreateBridgePort w1.trace req with
  | .error e => (.error e, w1)
  | .ok bp => (.ok bp, { w1 with ports := bp.Name :: w1.ports })

/-- The gRPC call `client.DeleteBridgePort`: logged, answered by the remote side; after a
success or a NotFound answer the remote side does not hold a port of that name. -/
def clientDeleteBridgePort (env : Env) (req : DeleteBridgePortRequest) (w : World) :
    Option RpcError × World :=
  let w1 := w.log (.deleteBridgePort req.Name)
  match env.DeleteBridgePort w1.trace req with
  | none => (none, { w1 with ports := w1.ports.filter (fun p => p ≠ req.Name) })
  | some e =>
    if e.code = Code.NotFound then
      (some e, { w1 with ports := w1.ports.filter (fun p => p ≠ req.Name) })
    else (some e, w1)

/-- CreateBridgePort creates a bridge port. Returns the error, the configuration (whose
`BridgePortName` the call may have set) and the world. -/
def CreateBridgePort (env : Env) (conf : NetConf) (mac : String) (w : World) :
    Except XpuErr Unit × NetConf × World :=
  let conn := initConnection env conf w
  match conn.1 with
  | .error e => (.error (.initConnection e), conf, conn.2)
  | .ok _ =>
    let createBridgePortRequest := produceCreateBridgePortRequest conf mac
    let resp := clientCreateBridgePort env createBridgePortRequest conn.2
    match resp.1 with
    | .error e => (.error (.rpc e), conf, resp.2)
    | .ok bridgePort =>
      let conf1 := { conf with BridgePortName := bridgePort.Name }
      if bridgePort.OperStatus ≠ BPOperStatus.UP then
        (.error .notUp, conf1, resp.2)
      else
        (.ok (), conf1, resp.2)

/-- DeleteBridgePort deletes a bridge port. -/
def DeleteBridgePort (env : Env) (conf : NetConf) (w : World) : Except XpuErr Unit × World :=
  if conf.BridgePortName = "" then
    (.ok (), w)
  else
    let conn := initConnection env conf w
    match conn.1 with
    | .error e => (.error (.initConnection e), conn.2)
    | .ok _ =>
      let deleteBridgePortRequest := produceDeleteBridgePortRequest conf
      let resp := clientDeleteBridgePort env deleteBridgePortRequest conn.2
      match resp.1 with
      | some err =>
        if err.code = Code.NotFound then (.ok (), resp.2) else (.error (.rpc err), resp.2)
      | none => (.ok (), resp.2)

/-! ## pkg/utils: allocation records and cached attachments -/

/-- DefaultCNIDir used for caching NetConf. -/
def DefaultCNIDir : String := "/var/lib/cni/opi"

/-- The file path `filepath.Join(dir, name)`, for a clean `dir` and a plain file name. -/
def filepathJoin (dir name : String) : String := dir ++ "/" ++ name

/-- The cache reference of `LoadConfFromCache`: `strings.Join([ContainerID, IfName], "-")`
under `DefaultCNIDir`. -/
def cRefPathOf (args : CmdArgs) : String :=
  filepathJoin DefaultCNIDir (String.intercalate "-" [args.ContainerID, args.IfName])

/-- Modelled from the spec: `PCIAllocator.IsAllocated` of pkg/utils (`isClaimed(pfID)`): whether
an allocation record exists for the id; the store itself may fail. -/
def IsAllocated (env : Env) (w : World) (pciAddress : String) : Except String Bool :=
  match env.IsAllocatedErr pciAddress with
  | some e => .error e
  | none => .ok ((w.allocs.lookup pciAddress).isSome)

/-- Modelled from the spec: `PCIAllocator.SaveAllocatedPCI` of pkg/utils (`claim`): on success
the id has exactly one record, holding the namespace path; on failure nothing is written. -/
def SaveAllocatedPCI (env : Env) (pciAddress ns : String) (w : World) : Option String × World :=
  let w1 := w.log (.saveAllocatedPCI pciAddress ns)
  match env.SaveAllocatedPCIErr w1.trace pciAddress with
  | some e => (some e, w1)
  | none =>
    (none, { w1 with allocs := (pciAddress, ns) :: w1.allocs.filter (fun r => r.1 ≠ pciAddress) })

/-- Modelled from the spec: `PCIAllocator.DeleteAllocatedPCI` of pkg/utils (`release`): on
success the id has no record, a no-op when it had none. -/
def DeleteAllocatedPCI (env : Env) (pciAddress : String) (w : World) : Option String × World :=
  let w1 := w.log (.deleteAllocatedPCI pciAddress)
  match env.DeleteAllocatedPCIErr w1.trace pciAddress with
  | some e => (some e, w1)
  | none => (none, { w1 with allocs := w1.allocs.filter (fun r => r.1 ≠ pciAddress) })

/-- Modelled from the spec: `SaveNetConf` of pkg/utils (cache `put`): on success the encoded
configuration is the one entry under the key of (container id, interface name). -/
def SaveNetConf (env : Env) (args : CmdArgs) (conf : NetConf) (w : World) :
    Option String × World :=
  let path := cRefPathOf args
  let w1 := w.log (.saveNetConf path)
  match env.SaveNetConfErr w1.trace path with
  | some e => (some e, w1)
  | none =>
    (none, { w1 with cache := (path, env.marshal conf) :: w1.cache.filter (fun r => r.1 ≠ path) })

/-- Modelled from the spec: `ReadScratchNetConf` of pkg/utils (cache `get`): the stored bytes,
an error when there is no entry. -/
def ReadScratchNetConf (w : World) (cRefPath : String) : Except String String :=
  match w.cache.lookup cRefPath with
  | some bytes => .ok bytes
  | none => .error "failed to read container data"

/-- Modelled from the spec: `CleanCachedNetConf` of pkg/utils (cache `delete`): on success no
entry is left under the path. -/
def CleanCachedNetConf (env : Env) (cRefPath : String) (w : World) : Option String × World :=
  let w1 := w.log (.cleanCachedNetConf cRefPath)
  match env.CleanCachedNetConfErr w1.trace cRefPath with
  | some e => (some e, w1)
  | none => (none, { w1 with cache := w1.cache.filter (fun r => r.1 ≠ cRefPath) })

/-! ## pkg/config -/

/-- The errors of `LoadConf`, one per `return` site. -/
inductive ConfErr where
  | loadNetConf (msg : String)
  | loadFlatNetConf (msg : String)
  | mergeConf (msg : String)
  | getVfInfo (msg : String)
  | deviceIDRequired
  | isAllocated (msg : String)
  | alreadyAllocated (deviceID : String)
  | hasDpdkDriver (msg : String)
  | unsupportedDevice (deviceID : String)
  | bothBridges
deriving DecidableEq, Repr

/-- The fixed search list of host-wide configuration files. -/
def getOpiConfFiles : List String :=
  ["/etc/kubernetes/cni/net.d/opi.d/opi.conf", "/etc/cni/net.d/opi.d/opi.conf"]

/-- Decode the request payload. -/
def loadNetConf (env : Env) (bytes : String) : Except String NetConf :=
  match env.unmarshal bytes with
  | .error e => .error e
  | .ok netconf => .ok netconf

/-- The loop of `loadFlatNetConf`: the first candidate that exists is read and decoded; with
none the zero configuration is returned. -/
def loadFlatNetConfFrom (env : Env) : List String → Except String NetConf
  | [] => .ok {}
  | confFile :: rest =>
    match env.PathExists confFile with
    | .error e => .error e
    | .ok false => loadFlatNetConfFrom env rest
    | .ok true =>
      match env.osOpen confFile with
      | some e => .error e
      | none =>
        match env.ReadAll confFile with
        | .error e => .error e
        | .ok jsonBytes =>
          match env.unmarshal jsonBytes with
          | .error e => .error e
          | .ok flatNetConf => .ok flatNetConf

/-- The host-wide defaults: the explicit path first when given, then the search list. -/
def loadFlatNetConf (env : Env) (configPath : String) : Except String NetConf :=
  let confFiles := getOpiConfFiles
  let confFiles := if configPath ≠ "" then configPath :: confFiles else confFiles
  loadFlatNetConfFrom env confFiles

/-- What `mergo.Merge` does to a string field: the source fills it only when it is empty. -/
def mergeString (dst src : String) : String := if dst = "" then src else dst

/-- What `mergo.Merge` does to an integer field. -/
def mergeInt (dst src : Int) : Int := if dst = 0 then src else dst

/-- What `mergo.Merge` does to an unsigned field. -/
def mergeNat (dst src : Nat) : Nat := if dst = 0 then src else dst

/-- What `mergo.Merge` does to a boolean field. -/
def mergeBool (dst src : Bool) : Bool := if dst = false then src else dst

/-- What `mergo.Merge` does to a `*int` field: a nil destination takes the source pointer, two
non-nil pointers are merged as integers. -/
def mergeIntPtr (dst src : Option Int) : Option Int :=
  match dst, src with
  | none, s => s
  | some d, none => some d
  | some d, some s => some (mergeInt d s)

/-- What `mergo.Merge` does to a slice field. -/
def mergeSlice (dst src : List String) : List String := if dst.length = 0 then src else dst

/-- What `mergo.Merge` does to the nested `VfState`, field by field. -/
def mergeVfState (dst src : VfState) : VfState :=
  { HostIFName := mergeString dst.HostIFName src.HostIFName
    SpoofChk := mergeBool dst.SpoofChk src.SpoofChk
    AdminMAC := mergeString dst.AdminMAC src.AdminMAC
    EffectiveMAC := mergeString dst.EffectiveMAC src.EffectiveMAC
    MinTxRate := mergeInt dst.MinTxRate src.MinTxRate
    MaxTxRate := mergeInt dst.MaxTxRate src.MaxTxRate
    LinkState := mergeNat dst.LinkState src.LinkState }

/-- The merge of `mergo.Merge(netconf, flatNetConf)`: request fields win, defaults fill only
unset fields. -/
def mergoMerge (dst src : NetConf) : NetConf :=
  { CNIVersion := mergeString dst.CNIVersion src.CNIVersion
    Name := mergeString dst.Name src.Name
    PluginType := mergeString dst.PluginType src.PluginType
    IPAMType := mergeString dst.IPAMType src.IPAMType
    OrigVfState := mergeVfState dst.OrigVfState src.OrigVfState
    DPDKMode := mergeBool dst.DPDKMode src.DPDKMode
    Master := mergeString dst.Master src.Master
    MAC := mergeString dst.MAC src.MAC
    LogicalBridge := mergeString dst.LogicalBridge src.LogicalBridge
    LogicalBridges := mergeSlice dst.LogicalBridges src.LogicalBridges
    PortType := mergeString dst.PortType src.PortType
    BridgePortName := mergeString dst.BridgePortName src.BridgePortName
    DeviceID := mergeString dst.DeviceID src.DeviceID
    VFID := mergeInt dst.VFID src.VFID
    MinTxRate := mergeIntPtr dst.MinTxRate src.MinTxRate
    MaxTxRate := mergeIntPtr dst.MaxTxRate src.MaxTxRate
    SpoofChk := mergeString dst.SpoofChk src.SpoofChk
    Trust := mergeString dst.Trust src.Trust
    LinkState := mergeString dst.LinkState src.LinkState
    XpuInfraMgrConn := mergeString dst.XpuInfraMgrConn src.XpuInfraMgrConn
    ConfigurationPath := mergeString dst.ConfigurationPath src.ConfigurationPath
    PciToMacPath := mergeString dst.PciToMacPath src.PciToMacPath
    RuntimeConfig := { Mac := mergeString dst.RuntimeConfig.Mac src.RuntimeConfig.Mac } }

/-- The function `mergeConf`; on two non-nil `*NetConf` arguments `mergo.Merge` returns no
error. -/
def mergeConf (netconf flatNetConf : NetConf) : Except String NetConf :=
  .ok (mergoMerge netconf flatNetConf)

/-- The name of the owning device and the function index of a VF. -/
def getVfInfo (env : Env) (vfPci : String) : Except String (String × Int) :=
  match env.GetPfName vfPci with
  | .error e => .error e
  | .ok pf =>
    match env.GetVfid vfPci pf with
    | .error e => .error e
    | .ok vfID => .ok (pf, vfID)

/-- The first three steps of `LoadConf`: the request merged with the host-wide defaults. -/
def loadMerged (env : Env) (bytes : String) : Except ConfErr NetConf :=
  match loadNetConf env bytes with
  | .error e => .error (.loadNetConf e)
  | .ok n =>
    match loadFlatNetConf env n.ConfigurationPath with
    | .error e => .error (.loadFlatNetConf e)
    | .ok flatNetConf =>
      match mergeConf n flatNetConf with
      | .error e => .error (.mergeConf e)
      | .ok n => .ok n

/-- The block of `LoadConf` that runs when no interface name was found: the VF is in
accelerated mode exactly when it is bound to a DPDK driver. -/
def probeDpdk (env : Env) (n : NetConf) (hostIFNames : String) (err : Option String) :
    Except ConfErr NetConf :=
  if err ≠ none ∨ hostIFNames = "" then
    match env.HasDpdkDriver n.DeviceID with
    | .error e => .error (.hasDpdkDriver e)
    | .ok hasDpdkDriver => .ok { n with DPDKMode := hasDpdkDriver }
  else .ok n

/-- The rest of `LoadConf`, from the merged configuration on. The two `fmt.Printf` warnings about
unsupported fields write to standard output only and are left out. -/
def resolveConf (env : Env) (w : World) (n : NetConf) : Except ConfErr NetConf :=
  if n.DeviceID ≠ "" then
    match getVfInfo env n.DeviceID with
    | .error e => .error (.getVfInfo e)
    | .ok (pfName, vfID) =>
      let n := { n with VFID := vfID, Master := pfName }
      match IsAllocated env w n.DeviceID with
      | .error e => .error (.isAllocated e)
      | .ok isAllocated =>
        if isAllocated then .error (.alreadyAllocated n.DeviceID)
        else
          let hostIFNames := (env.GetVFLinkNames n.DeviceID).1
          let err := (env.GetVFLinkNames n.DeviceID).2
          match probeDpdk env n hostIFNames err with
          | .error e => .error e
          | .ok n =>
            let n :=
              if hostIFNames ≠ "" then
                { n with OrigVfState := { n.OrigVfState with HostIFName := hostIFNames } }
              else n
            if hostIFNames = "" ∧ n.DPDKMode = false then .error (.unsupportedDevice n.DeviceID)
            else if n.LogicalBridge ≠ "" ∧ n.LogicalBridges.length > 0 then .error .bothBridges
            else .ok n
  else .error .deviceIDRequired

/-- LoadConf parses and validates stdin netconf and returns NetConf object. -/
def LoadConf (env : Env) (w : World) (bytes : String) : Except ConfErr NetConf :=
  match loadMerged env bytes with
  | .error e => .error e
  | .ok n => resolveConf env w n

/-- LoadConfFromCache retrieves cached NetConf returns it along with a handle for removal. -/
def LoadConfFromCache (env : Env) (w : World) (args : CmdArgs) :
    Except String (NetConf × String) :=
  let cRefPath := cRefPathOf args
  match ReadScratchNetConf w cRefPath with
  | .error _ => .error "error reading cached NetConf"
  | .ok netConfBytes =>
    match env.unmarshal netConfBytes with
    | .error e => .error e
    | .ok netConf => .ok (netConf, cRefPath)

/-! ## External collaborators called from cmd/opi/main.go -/

/-- The call `ns.GetNS`. -/
def nsGetNS (env : Env) (nspath : String) (w : World) : NsOpen × World :=
  let w1 := w.log (.getNS nspath)
  (env.GetNS w1.trace nspath, w1)

/-- The call `sm.FillOriginalVfInfo`. -/
def sriov.FillOriginalVfInfo (env : Env) (conf : NetConf) (w : World) : Option String × World :=
  let w1 := w.log (.fillOriginalVfInfo conf.DeviceID)
  (env.FillOriginalVfInfo w1.trace conf, w1)

/-- The call `sm.ApplyVFConfig`. -/
def sriov.ApplyVFConfig (env : Env) (conf : NetConf) (w : World) : Option String × World :=
  let w1 := w.log (.applyVFConfig conf.DeviceID conf.MAC)
  (env.ApplyVFConfig w1.trace conf, w1)

/-- The call `sm.SetupVF`, which returns the MAC address of the pod interface. -/
def sriov.SetupVF (env : Env) (conf : NetConf) (podifName : String) (w : World) :
    Except String String × World :=
  let w1 := w.log (.setupVF conf.DeviceID podifName)
  (env.SetupVF w1.trace conf podifName, w1)

/-- The call `sm.ResetVFConfig`. -/
def sriov.ResetVFConfig (env : Env) (conf : NetConf) (w : World) : Option String × World :=
  let w1 := w.log (.resetVFConfig conf.DeviceID)
  (env.ResetVFConfig w1.trace conf, w1)

/-- The call `sm.ReleaseVF`. -/
def sriov.ReleaseVF (env : Env) (conf : NetConf) (netNSPath : String) (w : World) :
    Option String × World :=
  let w1 := w.log (.releaseVF conf.DeviceID netNSPath)
  (env.ReleaseVF w1.trace conf netNSPath, w1)

/-- The call `sm.ResetVF`. -/
def sriov.ResetVF (env : Env) (conf : NetConf) (w : World) : Option String × World :=
  let w1 := w.log (.resetVF conf.DeviceID)
  (env.ResetVF w1.trace conf, w1)

/-- The call `ipam.ExecAdd`. -/
def ipam.ExecAdd (env : Env) (plugin stdin : String) (w : World) : Except String String × World :=
  let w1 := w.log (.ipamExecAdd plugin)
  (env.ExecAdd w1.trace plugin stdin, w1)

/-- The call `ipam.ExecDel`. -/
def ipam.ExecDel (env : Env) (plugin stdin : String) (w : World) : Option String × World :=
  let w1 := w.log (.ipamExecDel plugin)
  (env.ExecDel w1.trace plugin stdin, w1)

/-- The closure run by `netns.Do` in `cmdAdd`: configure the interface, then announce the
addresses, where a failure of the announcement is ignored. -/
def configureInNetns (env : Env) (ifName : String) (w : World) : Option String × World :=
  let w1 := w.log (.configureIface ifName)
  match env.ConfigureIface w1.trace ifName with
  | some e => (some e, w1)
  | none => (none, w1.log (.announceIPs ifName))

/-- The call `types.PrintResult`. -/
def PrintResult (env : Env) (result : Result) (cniVersion : String) (w : World) :
    Option String × World :=
  let w1 := w.log (.printResult cniVersion)
  (env.PrintResult w1.trace result cniVersion, w1)

/-! ## cmd/opi/main.go -/

/-- The side-channel arguments. -/
structure EnvArgs where
  MAC : String := ""
deriving DecidableEq, Repr

/-- The function `getEnvArgs`; `none` is the nil pointer. -/
def getEnvArgs (env : Env) (envArgsString : String) : Except String (Option EnvArgs) :=
  if envArgsString ≠ "" then
    match env.LoadArgs envArgsString with
    | .error e => .error e
    | .ok mac => .ok (some { MAC := mac })
  else .ok none

/-- The errors of `deleteResources`, one per `return` site. -/
inductive DelErr where
  | ipamExecDel (msg : String)
  | deleteBridgePort (e : XpuErr)
  | resetVFConfig (msg : String)
  | resetVF (msg : String)
  | openNetns (msg : String)
  | releaseVF (msg : String)
  | deleteAllocatedPCI (msg : String)
deriving DecidableEq, Repr

/-- The first statement of `deleteResources` after the nil check: release the addresses when
an address-management plugin is configured. -/
def releaseAddresses (env : Env) (args : CmdArgs) (netConf : NetConf) (w : World) :
    Option String × World :=
  if netConf.IPAMType ≠ "" then ipam.ExecDel env netConf.IPAMType args.StdinData w
  else (none, w)

/-- The block of `deleteResources` guarded by `!netConf.DPDKMode`: give the VF back to the host
and reset it to its original state. -/
def releaseAndReset (env : Env) (args : CmdArgs) (netConf : NetConf) (w : World) :
    Except DelErr Unit × World :=
  if args.Netns = "" then
    let r := sriov.ResetVF env netConf w
    match r.1 with
    | some e => (.error (.resetVF e), r.2)
    | none => (.ok (), r.2)
  else
    let o := nsGetNS env args.Netns w
    match o.1 with
    | .pathNotExist _ =>
      let r := sriov.ResetVF env netConf o.2
      match r.1 with
      | some e => (.error (.resetVF e), r.2)
      | none => (.ok (), r.2)
    | .failed e => (.error (.openNetns e), o.2)
    | .opened =>
      let rel := sriov.ReleaseVF env netConf args.Netns o.2
      match rel.1 with
      | some e => (.error (.releaseVF e), rel.2)
      | none =>
        let r := sriov.ResetVF env netConf rel.2
        match r.1 with
        | some e => (.error (.resetVF e), r.2)
        | none => (.ok (), r.2)

/-- The tail of `deleteResources`: mark the pci address as released. -/
def releaseAllocation (env : Env) (netConf : NetConf) (w : World) : Except DelErr Unit × World :=
  let r := DeleteAllocatedPCI env netConf.DeviceID w
  match r.1 with
  | some e => (.error (.deleteAllocatedPCI e), r.2)
  | none => (.ok (), r.2)

/-- The function `deleteResources`; `none` is the nil `*NetConf`. -/
def deleteResources (env : Env) (args : CmdArgs) (netConf : Option NetConf) (w : World) :
    Except DelErr Unit × World :=
  match netConf with
  | none => (.ok (), w)
  | some netConf =>
    let a := releaseAddresses env args netConf w
    match a.1 with
    | some e => (.error (.ipamExecDel e), a.2)
    | none =>
      let b := DeleteBridgePort env netConf a.2
      match b.1 with
      | .error e => (.error (.deleteBridgePort e), b.2)
      | .ok _ =>
        let r := sriov.ResetVFConfig env netConf b.2
        match r.1 with
        | some e => (.error (.resetVFConfig e), r.2)
        | none =>
          if netConf.DPDKMode = false then
            let v := releaseAndReset env args netConf r.2
            match v.1 with
            | .error e => (.error e, v.2)
            | .ok _ => releaseAllocation env netConf v.2
          else releaseAllocation env netConf r.2

/-- The errors of `cmdAdd`, one per `return` site. -/
inductive AddErr where
  | loadConf (e : ConfErr)
  | parseArgs (msg : String)
  | openNetns (msg : String)
  | fillOriginalVfInfo (msg : String)
  | applyVFConfig (msg : String)
  | setupVF (msg : String)
  | pciToMacPathEmpty
  | retrieveMac (msg : String)
  | createBridgePort (e : XpuErr)
  | ipamExecAdd (msg : String)
  | newResult (msg : String)
  | missingIPConfig
  | configureIface (msg : String)
  | saveAllocatedPCI (msg : String)
  | saveNetConf (msg : String)
  | printResult (msg : String)
deriving DecidableEq, Repr

/-- The locals of `cmdAdd` at the moment a `return` statement has run and before the deferred
functions run: the returned value, whether the local variable `err` is non-nil (what the deferred
rollback tests), the `netConf` pointer (`none` is nil), the bridge-port name `CreateBridgePort`
stored during this call (when its remote call returned a port), and the world. -/
structure AddFrame where
  ret : Except AddErr Result
  err : Bool
  netConf : Option NetConf
  bridgePort : Option String
  world : World

/-- The branch of `cmdAdd` on `netConf.DPDKMode` that yields the MAC address: the VF is set up
in the namespace, or the address is looked up by PCI address. The second component tells whether
the local variable `err` was assigned a non-nil error. -/
def podMac (env : Env) (args : CmdArgs) (netConf : NetConf) (w : World) :
    Except AddErr String × Bool × World :=
  if netConf.DPDKMode = false then
    let r := sriov.SetupVF env netConf args.IfName w
    match r.1 with
    | .error e => (.error (.setupVF e), true, r.2)
    | .ok macAddr => (.ok macAddr, false, r.2)
  else
    if netConf.PciToMacPath = "" then
      (.error .pciToMacPathEmpty, false, w)
    else
      match env.RetrieveMacFromPci netConf.DeviceID netConf.PciToMacPath with
      | .error e => (.error (.retrieveMac e), true, w)
      | .ok macAddr => (.ok macAddr, false, w)

/-- The block of `cmdAdd` that runs the address-management plugin. Every error it returns has
been assigned to the local variable `err`. -/
def runIPAM (env : Env) (args : CmdArgs) (netConf : NetConf) (result : Result) (w : World) :
    Except AddErr Result × World :=
  if netConf.IPAMType ≠ "" then
    let x := ipam.ExecAdd env netConf.IPAMType args.StdinData w
    match x.1 with
    | .error e => (.error (.ipamExecAdd e), x.2)
    | .ok r =>
      match env.NewResultFromResult r with
      | .error e => (.error (.newResult e), x.2)
      | .ok ips =>
        if ips.length = 0 then (.error .missingIPConfig, x.2)
        else
          let newResult : Result :=
            { Interfaces := result.Interfaces
              IPs := ips.map (fun ipc => { ipc with Interface := some 0 }) }
          if netConf.DPDKMode = false then
            let d := configureInNetns env args.IfName x.2
            match d.1 with
            | some e => (.error (.configureIface e), d.2)
            | none => (.ok newResult, d.2)
          else (.ok newResult, x.2)
  else (.ok result, w)

/-- Whether the remote call of a failed `CreateBridgePort` had returned a port, whose name was
then stored: so it is when the error is the not-UP error. -/
def storedOnError (e : XpuErr) (netConf : NetConf) : Option String :=
  match e with
  | .notUp => some netConf.BridgePortName
  | _ => none

/-- The statements of `cmdAdd` from `ns.GetNS` to the final `return`, for the resolved
configuration. -/
def cmdAddSteps (env : Env) (args : CmdArgs) (netConf : NetConf) (w : World) : AddFrame :=
  let o := nsGetNS env args.Netns w
  match o.1 with
  | .pathNotExist e => ⟨.error (.openNetns e), true, some netConf, none, o.2⟩
  | .failed e => ⟨.error (.openNetns e), true, some netConf, none, o.2⟩
  | .opened =>
    let fi := sriov.FillOriginalVfInfo env netConf o.2
    match fi.1 with
    | some e => ⟨.error (.fillOriginalVfInfo e), true, some netConf, none, fi.2⟩
    | none =>
      let ap := sriov.ApplyVFConfig env netConf fi.2
      match ap.1 with
      | some e => ⟨.error (.applyVFConfig e), true, some netConf, none, ap.2⟩
      | none =>
        let pm := podMac env args netConf ap.2
        match pm.1 with
        | .error e => ⟨.error e, pm.2.1, some netConf, none, pm.2.2⟩
        | .ok macAddr =>
          let result : Result :=
            { Interfaces := [{ Name := args.IfName, Sandbox := args.Netns, Mac := macAddr }] }
          let cbp := CreateBridgePort env netConf macAddr pm.2.2
          let netConf := cbp.2.1
          match cbp.1 with
          | .error e =>
            ⟨.error (.createBridgePort e), true, some netConf, storedOnError e netConf, cbp.2.2⟩
          | .ok _ =>
            let created := some netConf.BridgePortName
            let ia := runIPAM env args netConf result cbp.2.2
            match ia.1 with
            | .error e => ⟨.error e, true, some netConf, created, ia.2⟩
            | .ok result =>
              let sa := SaveAllocatedPCI env netConf.DeviceID args.Netns ia.2
              match sa.1 with
              | some e => ⟨.error (.saveAllocatedPCI e), true, some netConf, created, sa.2⟩
              | none =>
                let sc := SaveNetConf env args netConf sa.2
                match sc.1 with
                | some e => ⟨.error (.saveNetConf e), true, some netConf, created, sc.2⟩
                | none =>
                  let pr := PrintResult env result netConf.CNIVersion sc.2
                  match pr.1 with
                  | some e => ⟨.error (.printResult e), false, some netConf, created, pr.2⟩
                  | none => ⟨.ok result, false, some netConf, created, pr.2⟩

/-- The two MAC overrides of `cmdAdd`: a non-empty MAC of the side-channel arguments replaces
the configured one, then a non-empty `RuntimeConfig.Mac` replaces whatever is there. -/
def applyMacOverrides (netConf : NetConf) (envArgs : Option EnvArgs) : NetConf :=
  let netConf :=
    match envArgs with
    | some envArgs => if envArgs.MAC ≠ "" then { netConf with MAC := envArgs.MAC } else netConf
    | none => netConf
  if netConf.RuntimeConfig.Mac ≠ "" then { netConf with MAC := netConf.RuntimeConfig.Mac }
  else netConf

/-- The body of `cmdAdd` up to its `return` statement. -/
def cmdAddBody (env : Env) (args : CmdArgs) (w : World) : AddFrame :=
  match LoadConf env w args.StdinData with
  | .error e => ⟨.error (.loadConf e), true, none, none, w⟩
  | .ok netConf =>
    match getEnvArgs env args.Args with
    | .error e => ⟨.error (.parseArgs e), true, some netConf, none, w⟩
    | .ok envArgs => cmdAddSteps env args (applyMacOverrides netConf envArgs) w

/-- What `cmdAdd` leaves behind: the returned value, the outcome of the deferred
`deleteResources` when the deferred function called it, the bridge-port name stored during the
call, and the world. -/
structure AddOutcome where
  result : Except AddErr Result
  rollback : Option (Except DelErr Unit)
  bridgePort : Option String
  world : World

/-- The function `cmdAdd`: the body, then the deferred function, which calls `deleteResources`
when the local variable `err` is non-nil and drops what it returns. -/
def cmdAdd (env : Env) (args : CmdArgs) (w : World) : AddOutcome :=
  let f := cmdAddBody env args w
  if f.err then
    let r := deleteResources env args f.netConf f.world
    ⟨f.ret, some r.1, f.bridgePort, r.2⟩
  else
    ⟨f.ret, none, f.bridgePort, f.world⟩

/-- The errors of `cmdDel`, one per `return` site. -/
inductive DelCmdErr where
  | deleteResources (e : DelErr)
  | cleanCachedNetConf (msg : String)
deriving DecidableEq, Repr

/-- The function `cmdDel`. -/
def cmdDel (env : Env) (args : CmdArgs) (w : World) : Except DelCmdErr Unit × World :=
  match LoadConfFromCache env w args with
  | .error _ => (.ok (), w)
  | .ok (netConf, cRefPath) =>
    let d := deleteResources env args (some netConf) w
    match d.1 with
    | .error e => (.error (.deleteResources e), d.2)
    | .ok _ =>
      let c := CleanCachedNetConf env cRefPath d.2
      match c.1 with
      | some e => (.error (.cleanCachedNetConf e), c.2)
      | none => (.ok (), c.2)

/-- The function `cmdCheck`. -/
def cmdCheck (_args : CmdArgs) : Except String Unit := .ok ()

/-! ## Vocabulary of the statements -/

/-- The calls logged between the world `w` and a later world `w'`. -/
def World.since (w' w : World) : List Event := w'.trace.drop w.trace.length

/-- The compensation of `deleteResources` a call belongs to, in the order the function runs
them: 1 address release, 2 bridge-port delete, 3 administrative VF reset, 4 VF release and reset
(with the namespace lookup), 5 allocation release; 0 for a call `deleteResources` never makes. -/
def Event.stage : Event → Nat
  | .ipamExecDel _ => 1
  | .dial _ => 2
  | .deleteBridgePort _ => 2
  | .resetVFConfig _ => 3
  | .getNS _ => 4
  | .releaseVF _ _ => 4
  | .resetVF _ => 4
  | .deleteAllocatedPCI _ => 5
  | _ => 0

/-- The compensation whose failure an error of `deleteResources` reports. -/
def DelErr.stage : DelErr → Nat
  | .ipamExecDel _ => 1
  | .deleteBridgePort _ => 2
  | .resetVFConfig _ => 3
  | .resetVF _ => 4
  | .openNetns _ => 4
  | .releaseVF _ => 4
  | .deleteAllocatedPCI _ => 5

/-- The VF Manager calls `ReleaseVF` and `ResetVF`. -/
def Event.isVfRelease : Event → Bool
  | .releaseVF _ _ => true
  | .resetVF _ => true
  | _ => false

/-- The remote bridge-port calls: dial, create, delete. -/
def Event.isRemote : Event → Bool
  | .dial _ => true
  | .createBridgePort _ => true
  | .deleteBridgePort _ => true
  | _ => false

/-- The `return` sites of `cmdAdd` that lie after `sm.ApplyVFConfig` has succeeded and at which
the local variable `err` holds the error: all later sites but the empty-`PciToMacPath` return and
the final `PrintResult` return. -/
def AddErr.afterApplyWithErr : AddErr → Bool
  | .setupVF _ => true
  | .retrieveMac _ => true
  | .createBridgePort _ => true
  | .ipamExecAdd _ => true
  | .newResult _ => true
  | .missingIPConfig => true
  | .configureIface _ => true
  | .saveAllocatedPCI _ => true
  | .saveNetConf _ => true
  | _ => false

/-- The VF Manager call `ApplyVFConfig`. -/
def Event.isApplyVFConfig : Event → Bool
  | .applyVFConfig _ _ => true
  | _ => false

/-- The log `b` continues the log `a` by calls that all satisfy `P`. -/
def Grows (P : Event → Prop) (a b : List Event) : Prop :=
  ∃ t, b = a ++ t ∧ ∀ ev ∈ t, P ev

/-- The desired MAC as the specification words it, to be compared with `applyMacOverrides`: an
explicit runtime MAC of the payload wins; otherwise a non-empty MAC of the side-channel
arguments; otherwise the MAC of the resolved configuration. -/
def macByPrecedence (netConf : NetConf) (envArgs : Option EnvArgs) : String :=
  if netConf.RuntimeConfig.Mac ≠ "" then netConf.RuntimeConfig.Mac
  else
    match envArgs with
    | some a => if a.MAC ≠ "" then a.MAC else netConf.MAC
    | none => netConf.MAC

/-! ## Concrete collaborators used to instantiate the theorems -/

/-- A request for VF `d1` on the single bridge `br1`, remote endpoint `x:1`. -/
def sampleConf : NetConf :=
  { CNIVersion := "1.0.0", DeviceID := "d1", LogicalBridge := "br1", XpuInfraMgrConn := "x:1" }

/-- A host on which everything succeeds: the VF has the interface `vf1`, the remote side
creates the port `p1` and reports it UP, no host-wide configuration file exists. -/
def goodEnv : Env where
  unmarshal := fun _ => .ok sampleConf
  marshal := fun c => c.DeviceID
  PathExists := fun _ => .ok false
  osOpen := fun _ => none
  ReadAll := fun _ => .ok ""
  LoadArgs := fun _ => .ok ""
  GetPfName := fun _ => .ok "pf0"
  GetVfid := fun _ _ => .ok 1
  GetVFLinkNames := fun _ => ("vf1", none)
  HasDpdkDriver := fun _ => .ok false
  IsAllocatedErr := fun _ => none
  RetrieveMacFromPci := fun _ _ => .ok "m1"
  NewResultFromResult := fun _ => .ok [{ Address := "10.0.0.5/24" }]
  GetNS := fun _ _ => .opened
  FillOriginalVfInfo := fun _ _ => none
  ApplyVFConfig := fun _ _ => none
  SetupVF := fun _ _ _ => .ok "m1"
  ResetVFConfig := fun _ _ => none
  ReleaseVF := fun _ _ _ => none
  ResetVF := fun _ _ => none
  Dial := fun _ _ => none
  CreateBridgePort := fun _ _ => .ok { Name := "p1", OperStatus := .UP }
  DeleteBridgePort := fun _ _ => none
  ExecAdd := fun _ _ _ => .ok "r"
  ExecDel := fun _ _ _ => none
  ConfigureIface := fun _ _ => none
  SaveAllocatedPCIErr := fun _ _ => none
  DeleteAllocatedPCIErr := fun _ _ => none
  SaveNetConfErr := fun _ _ => none
  CleanCachedNetConfErr := fun _ _ => none
  PrintResult := fun _ _ _ => none

/-- The invocation arguments of the examples. -/
def sampleArgs : CmdArgs :=
  { ContainerID := "c1", Netns := "/ns/1", IfName := "net1", StdinData := "cfg" }

/-- The remote side creates the port `p1` but reports it DOWN. -/
def downEnv : Env :=
  { goodEnv with CreateBridgePort := fun _ _ => .ok { Name := "p1", OperStatus := .DOWN } }

/-- The request of `sampleConf` with the address-management plugin `ipam1` configured. -/
def ipamConf : NetConf := { sampleConf with IPAMType := "ipam1" }

/-- The remote side reports the new port `p1` DOWN, and the address-management plugin then
refuses the release. -/
def ipamDelFailsEnv : Env :=
  { downEnv with
    unmarshal := fun _ => .ok ipamConf
    ExecDel := fun _ _ _ => some "no lease" }

/-- The VF cannot be moved into the namespace, and the address-management plugin then refuses
the release. -/
def setupFailsEnv : Env :=
  { goodEnv with
    unmarshal := fun _ => .ok ipamConf
    SetupVF := fun _ _ _ => .error "busy"
    ExecDel := fun _ _ _ => some "no lease" }

/-- The VF cannot be moved into the namespace; every compensation succeeds. -/
def setupFailsCleanEnv : Env :=
  { goodEnv with SetupVF := fun _ _ _ => .error "busy" }

/-- The VF has no interface name and is bound to a DPDK driver; the request of `sampleConf`
sets no `PciToMacPath`. -/
def dpdkEnv : Env :=
  { goodEnv with
    GetVFLinkNames := fun _ => ("", none)
    HasDpdkDriver := fun _ => .ok true }

/-- A world in which VF `d1` is claimed by another namespace. -/
def claimedWorld : World := { allocs := [("d1", "/ns/0")] }

/-- A world that holds the cached attachment of `sampleArgs`, with its claim and its port. -/
def attachedWorld : World :=
  { allocs := [("d1", "/ns/1")], cache := [("/var/lib/cni/opi/c1-net1", "cfg")], ports := ["p1"] }

/-- A host whose cached attachments decode to `sampleConf` with the port `p1` recorded. -/
def cachedEnv : Env :=
  { goodEnv with unmarshal := fun _ => .ok { sampleConf with BridgePortName := "p1" } }

/-- The request is `sampleConf`, with the single bridge `br1`; the host-wide file
`/etc/cni/net.d/opi.d/opi.conf` exists and supplies the bridge list `[b2]`. -/
def flatBridgesEnv : Env :=
  { goodEnv with
    unmarshal := fun b => if b = "cfg" then .ok sampleConf else .ok { LogicalBridges := ["b2"] }
    PathExists := fun p => .ok (decide (p = "/etc/cni/net.d/opi.d/opi.conf"))
    ReadAll := fun _ => .ok "flat" }

/-- The request itself carries `DPDKMode: true`; the VF has the interface `vf1`. -/
def forcedDpdkEnv : Env :=
  { goodEnv with unmarshal := fun _ => .ok { sampleConf with DPDKMode := true } }

/-- The request itself carries `OrigVfState.HostIFName: old0`; the VF has no interface and is
bound to a DPDK driver. -/
def carriedNameEnv : Env :=
  { dpdkEnv with
    unmarshal := fun _ => .ok { sampleConf with OrigVfState := { HostIFName := "old0" } } }

/-- The VF has no interface and is not bound to a DPDK driver. -/
def noModeEnv : Env :=
  { goodEnv with
    GetVFLinkNames := fun _ => ("", none)
    HasDpdkDriver := fun _ => .ok false }

/-- The request configures the MAC `m-conf` and the runtime MAC `m-rt`; the side-channel
arguments carry the MAC `m-env`. -/
def macEnv : Env :=
  { goodEnv with
    unmarshal := fun _ => .ok { sampleConf with MAC := "m-conf", RuntimeConfig := { Mac := "m-rt" } }
    LoadArgs := fun _ => .ok "m-env" }

/-- The request configures the MAC `m-conf` and no runtime MAC; the side-channel arguments carry
the MAC `m-env`. -/
def envMacEnv : Env :=
  { goodEnv with
    unmarshal := fun _ => .ok { sampleConf with MAC := "m-conf" }
    LoadArgs := fun _ => .ok "m-env" }

/-- The invocation of `sampleArgs` with side-channel arguments. -/
def macArgs : CmdArgs := { sampleArgs with Args := "MAC=m-env" }

/-! ## Theorems: pkg/xpu -/

/-- C8: the create request has port type ACCESS and the bridge list `[LogicalBridge]` when the
single bridge id is non-empty, otherwise port type TRUNK and the full `LogicalBridges` list in
its order (empty when none is configured); its MAC field is the byte sequence of the MAC
argument. -/
theorem produceCreateBridgePortRequest_port_type_and_bridges (conf : NetConf) (mac : String) :
    (conf.LogicalBridge ≠ "" →
      (produceCreateBridgePortRequest conf mac).Ptype = BridgePortType.ACCESS ∧
      (produceCreateBridgePortRequest conf mac).LogicalBridges = [conf.LogicalBridge]) ∧
    (conf.LogicalBridge = "" →
      (produceCreateBridgePortRequest conf mac).Ptype = BridgePortType.TRUNK ∧
      (produceCreateBridgePortRequest conf mac).LogicalBridges = conf.LogicalBridges) ∧
    (conf.LogicalBridges = [] → conf.LogicalBridge = "" →
      (produceCreateBridgePortRequest conf mac).LogicalBridges = []) ∧
    (produceCreateBridgePortRequest conf mac).MacAddress = mac.toUTF8.data.toList := by
  refine ⟨fun h => ?_, fun h => ?_, fun hl h => ?_, rfl⟩
  · simp [produceCreateBridgePortRequest, h]
  · cases hl : conf.LogicalBridges <;> simp [produceCreateBridgePortRequest, h, hl]
  · simp [produceCreateBridgePortRequest, h, hl]

/-- The access-port case of C8 at a concrete configuration. -/
theorem produceCreateBridgePortRequest_access_witness :
    sampleConf.LogicalBridge ≠ "" ∧
    (produceCreateBridgePortRequest sampleConf "m1").Ptype = BridgePortType.ACCESS ∧
    (produceCreateBridgePortRequest sampleConf "m1").LogicalBridges = ["br1"] :=
  ⟨by decide,
    (produceCreateBridgePortRequest_port_type_and_bridges sampleConf "m1").1 (by decide)⟩

/-! ## Lemmas: what a single call does to the world -/

@[simp] theorem World.log_allocs (w : World) (e : Event) : (w.log e).allocs = w.allocs := rfl

@[simp] theorem World.log_cache (w : World) (e : Event) : (w.log e).cache = w.cache := rfl

@[simp] theorem World.log_ports (w : World) (e : Event) : (w.log e).ports = w.ports := rfl

@[simp] theorem World.log_trace (w : World) (e : Event) : (w.log e).trace = w.trace ++ [e] := rfl

@[simp] theorem nsGetNS_snd (env : Env) (p : String) (w : World) :
    (nsGetNS env p w).2 = w.log (.getNS p) := rfl

@[simp] theorem FillOriginalVfInfo_snd (env : Env) (c : NetConf) (w : World) :
    (sriov.FillOriginalVfInfo env c w).2 = w.log (.fillOriginalVfInfo c.DeviceID) := rfl

@[simp] theorem ApplyVFConfig_snd (env : Env) (c : NetConf) (w : World) :
    (sriov.ApplyVFConfig env c w).2 = w.log (.applyVFConfig c.DeviceID c.MAC) := rfl

@[simp] theorem SetupVF_snd (env : Env) (c : NetConf) (n : String) (w : World) :
    (sriov.SetupVF env c n w).2 = w.log (.setupVF c.DeviceID n) := rfl

@[simp] theorem ResetVFConfig_snd (env : Env) (c : NetConf) (w : World) :
    (sriov.ResetVFConfig env c w).2 = w.log (.resetVFConfig c.DeviceID) := rfl

@[simp] theorem ReleaseVF_snd (env : Env) (c : NetConf) (n : String) (w : World) :
    (sriov.ReleaseVF env c n w).2 = w.log (.releaseVF c.DeviceID n) := rfl

@[simp] theorem ResetVF_snd (env : Env) (c : NetConf) (w : World) :
    (sriov.ResetVF env c w).2 = w.log (.resetVF c.DeviceID) := rfl

@[simp] theorem ExecAdd_snd (env : Env) (t i : String) (w : World) :
    (ipam.ExecAdd env t i w).2 = w.log (.ipamExecAdd t) := rfl

@[simp] theorem ExecDel_snd (env : Env) (t i : String) (w : World) :
    (ipam.ExecDel env t i w).2 = w.log (.ipamExecDel t) := rfl

@[simp] theorem PrintResult_snd (env : Env) (r : Result) (v : String) (w : World) :
    (PrintResult env r v w).2 = w.log (.printResult v) := rfl

theorem initConnection_snd (env : Env) (c : NetConf) (w : World) :
    (initConnection env c w).2
      = if c.XpuInfraMgrConn = "" then w else w.log (.dial c.XpuInfraMgrConn) := by
  unfold initConnection
  split
  · rfl
  · simp only
    split <;> rfl

@[simp] theorem initConnection_allocs (env : Env) (c : NetConf) (w : World) :
    (initConnection env c w).2.allocs = w.allocs := by
  rw [initConnection_snd]; split <;> rfl

@[simp] theorem initConnection_cache (env : Env) (c : NetConf) (w : World) :
    (initConnection env c w).2.cache = w.cache := by
  rw [initConnection_snd]; split <;> rfl

@[simp] theorem initConnection_ports (env : Env) (c : NetConf) (w : World) :
    (initConnection env c w).2.ports = w.ports := by
  rw [initConnection_snd]; split <;> rfl

theorem initConnection_ok_endpoint (env : Env) (c : NetConf) (w : World)
    (h : (initConnection env c w).1 = .ok ()) : c.XpuInfraMgrConn ≠ "" := by
  intro he
  simp [initConnection, he] at h

theorem clientDeleteBridgePort_trace (env : Env) (req : DeleteBridgePortRequest) (w : World) :
    (clientDeleteBridgePort env req w).2.trace = w.trace ++ [.deleteBridgePort req.Name] := by
  unfold clientDeleteBridgePort
  simp only
  split
  · rfl
  · split <;> rfl

@[simp] theorem clientDeleteBridgePort_allocs (env : Env) (req : DeleteBridgePortRequest)
    (w : World) : (clientDeleteBridgePort env req w).2.allocs = w.allocs := by
  unfold clientDeleteBridgePort
  simp only
  split
  · rfl
  · split <;> rfl

@[simp] theorem clientDeleteBridgePort_cache (env : Env) (req : DeleteBridgePortRequest)
    (w : World) : (clientDeleteBridgePort env req w).2.cache = w.cache := by
  unfold clientDeleteBridgePort
  simp only
  split
  · rfl
  · split <;> rfl

theorem clientDeleteBridgePort_ports (env : Env) (req : DeleteBridgePortRequest) (w : World) :
    (clientDeleteBridgePort env req w).2.ports
      = match (clientDeleteBridgePort env req w).1 with
        | none => w.ports.filter (fun p => p ≠ req.Name)
        | some e =>
          if e.code = Code.NotFound then w.ports.filter (fun p => p ≠ req.Name) else w.ports := by
  unfold clientDeleteBridgePort
  simp only
  split
  · rfl
  · split <;> simp_all [World.log]

theorem clientCreateBridgePort_trace (env : Env) (req : CreateBridgePortRequest) (w : World) :
    (clientCreateBridgePort env req w).2.trace = w.trace ++ [.createBridgePort req] := by
  unfold clientCreateBridgePort
  simp only
  split <;> rfl

@[simp] theorem clientCreateBridgePort_allocs (env : Env) (req : CreateBridgePortRequest)
    (w : World) : (clientCreateBridgePort env req w).2.allocs = w.allocs := by
  unfold clientCreateBridgePort
  simp only
  split <;> rfl

@[simp] theorem clientCreateBridgePort_cache (env : Env) (req : CreateBridgePortRequest)
    (w : World) : (clientCreateBridgePort env req w).2.cache = w.cache := by
  unfold clientCreateBridgePort
  simp only
  split <;> rfl

theorem clientCreateBridgePort_ports (env : Env) (req : CreateBridgePortRequest) (w : World) :
    (clientCreateBridgePort env req w).2.ports
      = match (clientCreateBridgePort env req w).1 with
        | .error _ => w.ports
        | .ok bp => bp.Name :: w.ports := by
  unfold clientCreateBridgePort
  simp only
  split <;> simp_all [World.log]

/-! ## Lemmas: pkg/xpu -/

@[simp] theorem DeleteBridgePort_allocs (env : Env) (c : NetConf) (w : World) :
    (DeleteBridgePort env c w).2.allocs = w.allocs := by
  unfold DeleteBridgePort
  simp only
  repeat' split
  all_goals simp

@[simp] theorem DeleteBridgePort_cache (env : Env) (c : NetConf) (w : World) :
    (DeleteBridgePort env c w).2.cache = w.cache := by
  unfold DeleteBridgePort
  simp only
  repeat' split
  all_goals simp

theorem DeleteBridgePort_ports_subset (env : Env) (c : NetConf) (w : World) :
    ∀ p ∈ (DeleteBridgePort env c w).2.ports, p ∈ w.ports := by
  unfold DeleteBridgePort
  simp only
  repeat' split
  all_goals simp_all [clientDeleteBridgePort_ports]

theorem DeleteBridgePort_ok_ports (env : Env) (c : NetConf) (w : World)
    (h : (DeleteBridgePort env c w).1 = .ok ()) (hn : c.BridgePortName ≠ "") :
    c.BridgePortName ∉ (DeleteBridgePort env c w).2.ports := by
  revert h
  unfold DeleteBridgePort
  simp only [hn, if_false]
  repeat' split
  all_goals simp_all [clientDeleteBridgePort_ports, produceDeleteBridgePortRequest]

theorem DeleteBridgePort_trace (env : Env) (c : NetConf) (w : World) :
    ∃ t, (DeleteBridgePort env c w).2.trace = w.trace ++ t ∧
      ∀ ev ∈ t, ev = Event.dial c.XpuInfraMgrConn ∨ ev = Event.deleteBridgePort c.BridgePortName := by
  unfold DeleteBridgePort
  simp only
  by_cases he : c.XpuInfraMgrConn = ""
  · repeat' split
    all_goals simp_all [initConnection_snd, clientDeleteBridgePort_trace,
      produceDeleteBridgePortRequest]
  · repeat' split
    · exact ⟨[], by simp⟩
    · exact ⟨[.dial c.XpuInfraMgrConn], by simp [initConnection_snd, he]⟩
    all_goals
      exact ⟨[.dial c.XpuInfraMgrConn, .deleteBridgePort c.BridgePortName], by
        simp [initConnection_snd, he, clientDeleteBridgePort_trace,
          produceDeleteBridgePortRequest]⟩

/-- C7: `DeleteBridgePort` returns an error exactly when `BridgePortName` is non-empty and
either the connection cannot be initialised or the remote delete returns an error whose code is
not NotFound. An empty remote endpoint makes the connection fail. With an empty name it returns
success and leaves the world untouched (no dial, no remote call), whatever the endpoint; a remote
NotFound answer yields success. -/
theorem DeleteBridgePort_error_iff (env : Env) (conf : NetConf) (w : World) :
    ((∃ e, (DeleteBridgePort env conf w).1 = .error e) ↔
      conf.BridgePortName ≠ "" ∧
        ((∃ e, (initConnection env conf w).1 = .error e) ∨
          ∃ err, (clientDeleteBridgePort env (produceDeleteBridgePortRequest conf)
                    (initConnection env conf w).2).1 = some err ∧ err.code ≠ Code.NotFound)) ∧
    (conf.XpuInfraMgrConn = "" → initConnection env conf w = (.error .emptyEndpoint, w)) ∧
    (conf.BridgePortName = "" → DeleteBridgePort env conf w = (.ok (), w)) ∧
    (∀ err, (initConnection env conf w).1 = .ok () →
      (clientDeleteBridgePort env (produceDeleteBridgePortRequest conf)
          (initConnection env conf w).2).1 = some err →
      err.code = Code.NotFound → (DeleteBridgePort env conf w).1 = .ok ()) := by
  refine ⟨?_, fun h => by simp [initConnection, h], fun h => by simp [DeleteBridgePort, h], ?_⟩
  · unfold DeleteBridgePort
    simp only
    repeat' split
    all_goals simp_all
  · intro err hc hd hnf
    unfold DeleteBridgePort
    simp only
    repeat' split
    all_goals simp_all

/-- The empty-name case of C7 at a configuration whose remote endpoint is empty too. -/
theorem DeleteBridgePort_empty_name_witness :
    ({ } : NetConf).BridgePortName = "" ∧ DeleteBridgePort goodEnv { } { } = (.ok (), { }) :=
  ⟨by decide, (DeleteBridgePort_error_iff goodEnv { } { }).2.2.1 (by decide)⟩

/-! ## Lemmas: what the steps of `deleteResources` do to the world -/

@[simp] theorem releaseAddresses_allocs (env : Env) (args : CmdArgs) (c : NetConf) (w : World) :
    (releaseAddresses env args c w).2.allocs = w.allocs := by
  unfold releaseAddresses; split <;> simp

@[simp] theorem releaseAddresses_cache (env : Env) (args : CmdArgs) (c : NetConf) (w : World) :
    (releaseAddresses env args c w).2.cache = w.cache := by
  unfold releaseAddresses; split <;> simp

@[simp] theorem releaseAddresses_ports (env : Env) (args : CmdArgs) (c : NetConf) (w : World) :
    (releaseAddresses env args c w).2.ports = w.ports := by
  unfold releaseAddresses; split <;> simp

theorem releaseAddresses_trace (env : Env) (args : CmdArgs) (c : NetConf) (w : World) :
    ∃ t, (releaseAddresses env args c w).2.trace = w.trace ++ t ∧
      ∀ ev ∈ t, ev = Event.ipamExecDel c.IPAMType := by
  unfold releaseAddresses
  split
  · exact ⟨[.ipamExecDel c.IPAMType], by simp⟩
  · exact ⟨[], by simp⟩

@[simp] theorem releaseAndReset_allocs (env : Env) (args : CmdArgs) (c : NetConf) (w : World) :
    (releaseAndReset env args c w).2.allocs = w.allocs := by
  unfold releaseAndReset
  simp only
  repeat' split
  all_goals simp

@[simp] theorem releaseAndReset_cache (env : Env) (args : CmdArgs) (c : NetConf) (w : World) :
    (releaseAndReset env args c w).2.cache = w.cache := by
  unfold releaseAndReset
  simp only
  repeat' split
  all_goals simp

@[simp] theorem releaseAndReset_ports (env : Env) (args : CmdArgs) (c : NetConf) (w : World) :
    (releaseAndReset env args c w).2.ports = w.ports := by
  unfold releaseAndReset
  simp only
  repeat' split
  all_goals simp

theorem releaseAndReset_trace (env : Env) (args : CmdArgs) (c : NetConf) (w : World) :
    ∃ t, (releaseAndReset env args c w).2.trace = w.trace ++ t ∧
      ∀ ev ∈ t, ev = Event.getNS args.Netns ∨ ev = Event.releaseVF c.DeviceID args.Netns
        ∨ ev = Event.resetVF c.DeviceID := by
  unfold releaseAndReset
  simp only
  repeat' split
  all_goals simp only [nsGetNS_snd, ResetVF_snd, ReleaseVF_snd, World.log_trace,
    List.append_assoc]
  all_goals refine ⟨_, rfl, ?_⟩
  all_goals simp

theorem DeleteAllocatedPCI_trace (env : Env) (d : String) (w : World) :
    (DeleteAllocatedPCI env d w).2.trace = w.trace ++ [.deleteAllocatedPCI d] := by
  unfold DeleteAllocatedPCI
  simp only
  split <;> rfl

@[simp] theorem DeleteAllocatedPCI_cache (env : Env) (d : String) (w : World) :
    (DeleteAllocatedPCI env d w).2.cache = w.cache := by
  unfold DeleteAllocatedPCI
  simp only
  split <;> rfl

@[simp] theorem DeleteAllocatedPCI_ports (env : Env) (d : String) (w : World) :
    (DeleteAllocatedPCI env d w).2.ports = w.ports := by
  unfold DeleteAllocatedPCI
  simp only
  split <;> rfl

theorem DeleteAllocatedPCI_allocs (env : Env) (d : String) (w : World) :
    (DeleteAllocatedPCI env d w).2.allocs
      = match (DeleteAllocatedPCI env d w).1 with
        | none => w.allocs.filter (fun r => r.1 ≠ d)
        | some _ => w.allocs := by
  unfold DeleteAllocatedPCI
  simp only
  split <;> simp_all [World.log]

theorem releaseAllocation_trace (env : Env) (c : NetConf) (w : World) :
    (releaseAllocation env c w).2.trace = w.trace ++ [.deleteAllocatedPCI c.DeviceID] := by
  unfold releaseAllocation
  simp only
  split <;> simp [DeleteAllocatedPCI_trace]

@[simp] theorem releaseAllocation_cache (env : Env) (c : NetConf) (w : World) :
    (releaseAllocation env c w).2.cache = w.cache := by
  unfold releaseAllocation
  simp only
  split <;> simp

@[simp] theorem releaseAllocation_ports (env : Env) (c : NetConf) (w : World) :
    (releaseAllocation env c w).2.ports = w.ports := by
  unfold releaseAllocation
  simp only
  split <;> simp

theorem releaseAllocation_ok_allocs (env : Env) (c : NetConf) (w : World)
    (h : (releaseAllocation env c w).1 = .ok ()) :
    (releaseAllocation env c w).2.allocs = w.allocs.filter (fun r => r.1 ≠ c.DeviceID) := by
  revert h
  unfold releaseAllocation
  simp only
  split
  · simp
  · intro _
    simp_all [DeleteAllocatedPCI_allocs]

/-- A successful `deleteResources` leaves no allocation record for the device, leaves the cache
as it was, adds no remote port, and leaves no remote port under a non-empty `BridgePortName`. -/
theorem deleteResources_ok_effect (env : Env) (args : CmdArgs) (c : NetConf) (w : World)
    (h : (deleteResources env args (some c) w).1 = .ok ()) :
    (deleteResources env args (some c) w).2.allocs = w.allocs.filter (fun r => r.1 ≠ c.DeviceID) ∧
    (deleteResources env args (some c) w).2.cache = w.cache ∧
    (c.BridgePortName ≠ "" → c.BridgePortName ∉ (deleteResources env args (some c) w).2.ports) ∧
    (∀ p ∈ (deleteResources env args (some c) w).2.ports, p ∈ w.ports) := by
  revert h
  unfold deleteResources
  simp only
  repeat' split
  all_goals simp
  all_goals intro h
  all_goals simp [releaseAllocation_ok_allocs, h]
  all_goals
    constructor
    · intro hn
      have := DeleteBridgePort_ok_ports env c (releaseAddresses env args c w).2
        (by simp_all) hn
      simpa using this
    · intro p hp
      have := DeleteBridgePort_ports_subset env c (releaseAddresses env args c w).2 p hp
      simpa using this

/-! ## Lemmas: what the steps of `cmdAdd` do to the world -/

@[simp] theorem configureInNetns_allocs (env : Env) (n : String) (w : World) :
    (configureInNetns env n w).2.allocs = w.allocs := by
  unfold configureInNetns
  simp only
  split <;> rfl

@[simp] theorem configureInNetns_cache (env : Env) (n : String) (w : World) :
    (configureInNetns env n w).2.cache = w.cache := by
  unfold configureInNetns
  simp only
  split <;> rfl

@[simp] theorem configureInNetns_ports (env : Env) (n : String) (w : World) :
    (configureInNetns env n w).2.ports = w.ports := by
  unfold configureInNetns
  simp only
  split <;> rfl

@[simp] theorem podMac_allocs (env : Env) (args : CmdArgs) (c : NetConf) (w : World) :
    (podMac env args c w).2.2.allocs = w.allocs := by
  unfold podMac
  simp only
  repeat' split
  all_goals simp

@[simp] theorem podMac_cache (env : Env) (args : CmdArgs) (c : NetConf) (w : World) :
    (podMac env args c w).2.2.cache = w.cache := by
  unfold podMac
  simp only
  repeat' split
  all_goals simp

@[simp] theorem podMac_ports (env : Env) (args : CmdArgs) (c : NetConf) (w : World) :
    (podMac env args c w).2.2.ports = w.ports := by
  unfold podMac
  simp only
  repeat' split
  all_goals simp

@[simp] theorem runIPAM_allocs (env : Env) (args : CmdArgs) (c : NetConf) (r : Result)
    (w : World) : (runIPAM env args c r w).2.allocs = w.allocs := by
  unfold runIPAM
  simp only
  repeat' split
  all_goals simp

@[simp] theorem runIPAM_cache (env : Env) (args : CmdArgs) (c : NetConf) (r : Result)
    (w : World) : (runIPAM env args c r w).2.cache = w.cache := by
  unfold runIPAM
  simp only
  repeat' split
  all_goals simp

@[simp] theorem runIPAM_ports (env : Env) (args : CmdArgs) (c : NetConf) (r : Result)
    (w : World) : (runIPAM env args c r w).2.ports = w.ports := by
  unfold runIPAM
  simp only
  repeat' split
  all_goals simp

@[simp] theorem CreateBridgePort_allocs (env : Env) (c : NetConf) (mac : String) (w : World) :
    (CreateBridgePort env c mac w).2.2.allocs = w.allocs := by
  unfold CreateBridgePort
  simp only
  repeat' split
  all_goals simp

@[simp] theorem CreateBridgePort_cache (env : Env) (c : NetConf) (mac : String) (w : World) :
    (CreateBridgePort env c mac w).2.2.cache = w.cache := by
  unfold CreateBridgePort
  simp only
  repeat' split
  all_goals simp

@[simp] theorem CreateBridgePort_DeviceID (env : Env) (c : NetConf) (mac : String) (w : World) :
    (CreateBridgePort env c mac w).2.1.DeviceID = c.DeviceID := by
  unfold CreateBridgePort
  simp only
  repeat' split
  all_goals rfl

theorem CreateBridgePort_ok_ports (env : Env) (c : NetConf) (mac : String) (w : World)
    (h : (CreateBridgePort env c mac w).1 = .ok ()) :
    (CreateBridgePort env c mac w).2.2.ports
      = (CreateBridgePort env c mac w).2.1.BridgePortName :: w.ports := by
  revert h
  unfold CreateBridgePort
  simp only
  repeat' split
  all_goals simp_all [clientCreateBridgePort_ports]

theorem CreateBridgePort_notUp_ports (env : Env) (c : NetConf) (mac : String) (w : World)
    (h : (CreateBridgePort env c mac w).1 = .error .notUp) :
    (CreateBridgePort env c mac w).2.2.ports
      = (CreateBridgePort env c mac w).2.1.BridgePortName :: w.ports := by
  revert h
  unfold CreateBridgePort
  simp only
  repeat' split
  all_goals simp_all [clientCreateBridgePort_ports]

theorem CreateBridgePort_initConnection_ports (env : Env) (c : NetConf) (mac : String)
    (w : World) (e : ConnErr) (_h : (CreateBridgePort env c mac w).1 = .error (.initConnection e)) :
    (CreateBridgePort env c mac w).2.2.ports = w.ports := by
  revert _h
  unfold CreateBridgePort
  simp only
  repeat' split
  all_goals simp_all [clientCreateBridgePort_ports]

theorem CreateBridgePort_rpc_ports (env : Env) (c : NetConf) (mac : String)
    (w : World) (e : RpcError) (_h : (CreateBridgePort env c mac w).1 = .error (.rpc e)) :
    (CreateBridgePort env c mac w).2.2.ports = w.ports := by
  revert _h
  unfold CreateBridgePort
  simp only
  repeat' split
  all_goals simp_all [clientCreateBridgePort_ports]

@[simp] theorem SaveAllocatedPCI_cache (env : Env) (d n : String) (w : World) :
    (SaveAllocatedPCI env d n w).2.cache = w.cache := by
  unfold SaveAllocatedPCI
  simp only
  split <;> rfl

@[simp] theorem SaveAllocatedPCI_ports (env : Env) (d n : String) (w : World) :
    (SaveAllocatedPCI env d n w).2.ports = w.ports := by
  unfold SaveAllocatedPCI
  simp only
  split <;> rfl

theorem SaveAllocatedPCI_allocs (env : Env) (d n : String) (w : World) :
    (SaveAllocatedPCI env d n w).2.allocs
      = match (SaveAllocatedPCI env d n w).1 with
        | none => (d, n) :: w.allocs.filter (fun r => r.1 ≠ d)
        | some _ => w.allocs := by
  unfold SaveAllocatedPCI
  simp only
  split <;> simp_all [World.log]

@[simp] theorem SaveNetConf_allocs (env : Env) (args : CmdArgs) (c : NetConf) (w : World) :
    (SaveNetConf env args c w).2.allocs = w.allocs := by
  unfold SaveNetConf
  simp only
  split <;> rfl

@[simp] theorem SaveNetConf_ports (env : Env) (args : CmdArgs) (c : NetConf) (w : World) :
    (SaveNetConf env args c w).2.ports = w.ports := by
  unfold SaveNetConf
  simp only
  split <;> rfl

theorem SaveNetConf_error_cache (env : Env) (args : CmdArgs) (c : NetConf) (w : World)
    (e : String) (h : (SaveNetConf env args c w).1 = some e) :
    (SaveNetConf env args c w).2.cache = w.cache := by
  revert h
  unfold SaveNetConf
  simp only
  split <;> simp_all [World.log]

/-- The frame `cmdAddSteps` returns: the configuration is the given one up to `BridgePortName`,
which holds the stored name when one was stored; the cache is untouched unless the cache write
succeeded; the allocation records are untouched or hold the new claim; the remote ports are those
of before plus the stored one; and a return that leaves `err` nil before the final print has
claimed and stored nothing. -/
theorem cmdAddSteps_frame (env : Env) (args : CmdArgs) (c : NetConf) (w : World) :
    (∃ c', (cmdAddSteps env args c w).netConf = some c' ∧ c'.DeviceID = c.DeviceID ∧
      ∀ n, (cmdAddSteps env args c w).bridgePort = some n → c'.BridgePortName = n) ∧
    (∀ e, (cmdAddSteps env args c w).ret = .error e → (∀ m, e ≠ .printResult m) →
      (cmdAddSteps env args c w).world.cache = w.cache) ∧
    ((cmdAddSteps env args c w).world.allocs = w.allocs ∨
      (cmdAddSteps env args c w).world.allocs
        = (c.DeviceID, args.Netns) :: w.allocs.filter (fun r => r.1 ≠ c.DeviceID)) ∧
    ((cmdAddSteps env args c w).bridgePort = none →
      (cmdAddSteps env args c w).world.ports = w.ports) ∧
    (∀ n, (cmdAddSteps env args c w).bridgePort = some n →
      (cmdAddSteps env args c w).world.ports = n :: w.ports) ∧
    ((cmdAddSteps env args c w).err = false →
      ∀ e, (cmdAddSteps env args c w).ret = .error e → (∀ m, e ≠ .printResult m) →
        (cmdAddSteps env args c w).world.allocs = w.allocs ∧
        (cmdAddSteps env args c w).bridgePort = none) := by
  unfold cmdAddSteps
  simp only
  repeat' split
  all_goals simp
  · rename_i e heq
    cases e with
    | initConnection e => simp_all [storedOnError, CreateBridgePort_initConnection_ports]
    | rpc e => simp_all [storedOnError, CreateBridgePort_rpc_ports]
    | notUp => simp_all [storedOnError, CreateBridgePort_notUp_ports]
  all_goals simp_all [CreateBridgePort_ok_ports, SaveAllocatedPCI_allocs,
    SaveNetConf_error_cache]

/-! ## Lemmas: the calls `deleteResources` makes -/

theorem since_eq_of_trace {w w' : World} {t : List Event} (h : w'.trace = w.trace ++ t) :
    w'.since w = t := by
  simp [World.since, h]

theorem releaseAndReset_error_stage (env : Env) (args : CmdArgs) (c : NetConf) (w : World)
    (e : DelErr) (h : (releaseAndReset env args c w).1 = .error e) :
    e.stage = 4 ∧ ∀ m, e ≠ .resetVFConfig m := by
  revert h
  unfold releaseAndReset
  simp only
  repeat' split
  all_goals simp
  all_goals (intro h; subst h; simp [DelErr.stage])

theorem releaseAllocation_error_stage (env : Env) (c : NetConf) (w : World)
    (e : DelErr) (h : (releaseAllocation env c w).1 = .error e) :
    e.stage = 5 ∧ ∀ m, e ≠ .resetVFConfig m := by
  revert h
  unfold releaseAllocation
  simp only
  repeat' split
  all_goals simp
  all_goals (intro h; subst h; simp [DelErr.stage])

/-- The calls of `deleteResources` are a run `a` of address-release and bridge-port calls
followed by a run `tail` that is empty or starts with the administrative reset; `tail` is not
empty unless one of the first two compensations failed, it is the reset alone when the reset
failed, and when `deleteResources` fails no call of a later compensation has been made. -/
theorem deleteResources_calls (env : Env) (args : CmdArgs) (c : NetConf) (w : World) :
    ∃ a tail, (deleteResources env args (some c) w).2.trace = w.trace ++ (a ++ tail) ∧
      (∀ ev ∈ a, ev.stage = 1 ∨ ev.stage = 2) ∧
      (tail = [] ∨ ∃ rest, tail = Event.resetVFConfig c.DeviceID :: rest) ∧
      ((∀ m, (deleteResources env args (some c) w).1 ≠ .error (.ipamExecDel m)) →
        (∀ x, (deleteResources env args (some c) w).1 ≠ .error (.deleteBridgePort x)) →
        tail ≠ []) ∧
      (∀ m, (deleteResources env args (some c) w).1 = .error (.resetVFConfig m) →
        tail = [Event.resetVFConfig c.DeviceID]) ∧
      (∀ e, (deleteResources env args (some c) w).1 = .error e →
        ∀ ev ∈ a ++ tail, ev.stage ≤ e.stage) := by
  obtain ⟨ta, hta, hA⟩ := releaseAddresses_trace env args c w
  obtain ⟨tb, htb, hB⟩ := DeleteBridgePort_trace env c (releaseAddresses env args c w).2
  obtain ⟨tv, htv, hV⟩ := releaseAndReset_trace env args c
    ((DeleteBridgePort env c (releaseAddresses env args c w).2).2.log
      (.resetVFConfig c.DeviceID))
  have sA : ∀ ev ∈ ta, ev.stage = 1 := fun ev h => by rw [hA ev h]; rfl
  have sB : ∀ ev ∈ tb, ev.stage = 2 := fun ev h => by
    rcases hB ev h with h | h <;> (rw [h]; rfl)
  have sV : ∀ ev ∈ tv, ev.stage = 4 := fun ev h => by
    rcases hV ev h with h | h | h <;> (rw [h]; rfl)
  unfold deleteResources
  simp only
  split
  · refine ⟨ta, [], ?_, ?_, ?_, ?_, ?_, ?_⟩
    · simp [hta]
    · intro ev h; exact Or.inl (sA ev h)
    · exact Or.inl rfl
    · intro h1 _; exact absurd rfl (h1 _)
    · intro m h; simp at h
    · intro e h ev hev
      simp at h; subst h
      simp at hev
      simp [sA ev hev, DelErr.stage]
  · split
    · refine ⟨ta ++ tb, [], ?_, ?_, ?_, ?_, ?_, ?_⟩
      · simp [htb, hta]
      · intro ev h
        rcases List.mem_append.1 h with h | h
        · exact Or.inl (sA ev h)
        · exact Or.inr (sB ev h)
      · exact Or.inl rfl
      · intro _ h2; exact absurd rfl (h2 _)
      · intro m h; simp at h
      · intro e h ev hev
        simp at h; subst h
        simp at hev
        rcases hev with h | h
        · simp [sA ev h, DelErr.stage]
        · simp [sB ev h, DelErr.stage]
    · have hab : ∀ ev ∈ ta ++ tb, ev.stage = 1 ∨ ev.stage = 2 := by
        intro ev h
        rcases List.mem_append.1 h with h | h
        · exact Or.inl (sA ev h)
        · exact Or.inr (sB ev h)
      have hab2 : ∀ ev ∈ ta ++ tb, ev.stage ≤ 2 := by
        intro ev h
        rcases hab ev h with h | h <;> omega
      have hr : (Event.resetVFConfig c.DeviceID).stage = 3 := rfl
      have hd : (Event.deleteAllocatedPCI c.DeviceID).stage = 5 := rfl
      split
      · refine ⟨ta ++ tb, [.resetVFConfig c.DeviceID], ?_, hab, Or.inr ⟨[], rfl⟩,
          fun _ _ => by simp, fun _ _ => rfl, ?_⟩
        · simp [htb, hta]
        · intro e h ev hev
          simp at h; subst h
          rcases List.mem_append.1 hev with h | h
          · have := hab2 ev h
            simp only [DelErr.stage]; omega
          · simp at h; subst h
            simp [DelErr.stage, Event.stage]
      · split
        · split
          · rename_i e he
            have hes := releaseAndReset_error_stage env args c _ e he
            refine ⟨ta ++ tb, .resetVFConfig c.DeviceID :: tv, ?_, hab, Or.inr ⟨tv, rfl⟩,
              fun _ _ => by simp, ?_, ?_⟩
            · simp at htv
              simp [htv, htb, hta]
            · intro m h
              simp at h
              exact absurd h (hes.2 m)
            · intro e' h ev hev
              simp at h; subst h
              rw [hes.1]
              rcases List.mem_append.1 hev with h | h
              · have := hab2 ev h; omega
              · rcases List.mem_cons.1 h with h | h
                · subst h; simp [Event.stage]
                · simp [sV ev h]
          · refine ⟨ta ++ tb, .resetVFConfig c.DeviceID :: (tv ++ [.deleteAllocatedPCI c.DeviceID]),
              ?_, hab, Or.inr ⟨_, rfl⟩, fun _ _ => by simp, ?_, ?_⟩
            · simp at htv
              simp [releaseAllocation_trace, htv, htb, hta]
            · intro m h
              exact absurd rfl ((releaseAllocation_error_stage env c _ _ h).2 m)
            · intro e h ev hev
              rw [(releaseAllocation_error_stage env c _ _ h).1]
              rcases List.mem_append.1 hev with h | h
              · have := hab2 ev h; omega
              · rcases List.mem_cons.1 h with h | h
                · subst h; simp [Event.stage]
                · rcases List.mem_append.1 h with h | h
                  · simp [sV ev h]
                  · simp at h; subst h; simp [Event.stage]
        · refine ⟨ta ++ tb, [.resetVFConfig c.DeviceID, .deleteAllocatedPCI c.DeviceID],
            ?_, hab, Or.inr ⟨_, rfl⟩, fun _ _ => by simp, ?_, ?_⟩
          · simp [releaseAllocation_trace, htb, hta]
          · intro m h
            exact absurd rfl ((releaseAllocation_error_stage env c _ _ h).2 m)
          · intro e h ev hev
            rw [(releaseAllocation_error_stage env c _ _ h).1]
            rcases List.mem_append.1 hev with h | h
            · have := hab2 ev h; omega
            · simp at h
              rcases h with h | h <;> (subst h; simp [Event.stage])

theorem mem_pre_of_split (q : Event → Bool) (a tail : List Event) (r : Event)
    (ha : ∀ ev ∈ a, q ev = false) (hr : q r = false) (pre post : List Event) (ev : Event)
    (h : a ++ r :: tail = pre ++ ev :: post) (hq : q ev = true) : r ∈ pre := by
  rcases List.append_eq_append_iff.1 h with ⟨a', h1, h2⟩ | ⟨c', h1, h2⟩
  · cases a' with
    | nil =>
      simp at h2
      rw [h2.1, hq] at hr
      exact absurd hr (by simp)
    | cons x a'' =>
      simp at h2
      rw [h1, h2.1]
      simp
  · cases c' with
    | nil =>
      simp at h2
      rw [← h2.1, hq] at hr
      exact absurd hr (by simp)
    | cons x c'' =>
      simp at h2
      have := ha ev (by rw [h1, h2.1]; simp)
      rw [hq] at this
      exact absurd this (by simp)

theorem no_split_of_none (q : Event → Bool) (a : List Event)
    (ha : ∀ ev ∈ a, q ev = false) (pre post : List Event) (ev : Event)
    (h : a = pre ++ ev :: post) (hq : q ev = true) : False := by
  have := ha ev (by rw [h]; simp)
  rw [hq] at this
  exact absurd this (by simp)

theorem not_isVfRelease_of_stage_le (ev : Event) (h : ev.stage ≤ 3) : ev.isVfRelease = false := by
  cases ev <;> simp_all [Event.stage, Event.isVfRelease]

/-! ## Theorems: DEL's resource teardown -/

/-- C10: in every run of `deleteResources` (standard or accelerated mode, namespace path empty,
absent on the host, or present), every `ReleaseVF` or `ResetVF` call is preceded, among the calls
the function makes, by the `ResetVFConfig` call for the same configuration; and when
`ResetVFConfig` fails, no `ReleaseVF` and no `ResetVF` call is made. -/
theorem deleteResources_resetAdmin_precedes_release (env : Env) (args : CmdArgs)
    (netConf : NetConf) (w : World) :
    (deleteResources env args (some netConf) w).2.trace
      = w.trace ++ (deleteResources env args (some netConf) w).2.since w ∧
    (∀ pre ev post,
      (deleteResources env args (some netConf) w).2.since w = pre ++ ev :: post →
      ev.isVfRelease = true → Event.resetVFConfig netConf.DeviceID ∈ pre) ∧
    (∀ m, (deleteResources env args (some netConf) w).1 = .error (.resetVFConfig m) →
      ∀ ev ∈ (deleteResources env args (some netConf) w).2.since w, ev.isVfRelease = false) := by
  obtain ⟨a, tail, ht, ha, htail, _, hreset, hstage⟩ := deleteResources_calls env args netConf w
  have hs := since_eq_of_trace ht
  have ha' : ∀ ev ∈ a, ev.isVfRelease = false := fun ev h =>
    not_isVfRelease_of_stage_le ev (by rcases ha ev h with h | h <;> omega)
  refine ⟨by rw [hs, ht], ?_, ?_⟩
  · intro pre ev post h hq
    rw [hs] at h
    rcases htail with h0 | ⟨rest, h0⟩
    · rw [h0, List.append_nil] at h
      exact (no_split_of_none _ a ha' pre post ev h hq).elim
    · rw [h0] at h
      exact mem_pre_of_split Event.isVfRelease a rest (.resetVFConfig netConf.DeviceID) ha' rfl
        pre post ev h hq
  · intro m hm ev hev
    rw [hs] at hev
    exact not_isVfRelease_of_stage_le ev (hstage _ hm ev hev)

/-- A DEL-side teardown in standard mode with the namespace present: the calls in order, and the
administrative reset among the calls that precede `ReleaseVF`. -/
theorem deleteResources_resetAdmin_precedes_release_witness :
    (deleteResources goodEnv sampleArgs (some { sampleConf with BridgePortName := "p1" })
        attachedWorld).2.since attachedWorld
      = [.dial "x:1", .deleteBridgePort "p1", .resetVFConfig "d1", .getNS "/ns/1"]
          ++ Event.releaseVF "d1" "/ns/1" :: [.resetVF "d1", .deleteAllocatedPCI "d1"] ∧
    Event.resetVFConfig "d1"
      ∈ [Event.dial "x:1", .deleteBridgePort "p1", .resetVFConfig "d1", .getNS "/ns/1"] :=
  ⟨by decide,
    (deleteResources_resetAdmin_precedes_release goodEnv sampleArgs
      { sampleConf with BridgePortName := "p1" } attachedWorld).2.1
      [.dial "x:1", .deleteBridgePort "p1", .resetVFConfig "d1", .getNS "/ns/1"]
      (.releaseVF "d1" "/ns/1") [.resetVF "d1", .deleteAllocatedPCI "d1"] (by decide) rfl⟩

/-! ## Lemmas: pkg/config -/

theorem IsAllocated_ok (env : Env) (w : World) (d : String) (b : Bool)
    (h : IsAllocated env w d = .ok b) : b = (w.allocs.lookup d).isSome := by
  revert h
  unfold IsAllocated
  split <;> simp
  exact fun h => h.symm

theorem probeDpdk_DeviceID (env : Env) (n n' : NetConf) (i : String) (e : Option String)
    (h : probeDpdk env n i e = .ok n') : n'.DeviceID = n.DeviceID := by
  revert h
  unfold probeDpdk
  repeat' split
  all_goals simp
  all_goals (intro h; subst h; rfl)

/-- A configuration that `resolveConf` returns keeps the device id, for which no allocation
record exists. -/
theorem resolveConf_ok (env : Env) (w : World) (n c : NetConf)
    (h : resolveConf env w n = .ok c) :
    c.DeviceID = n.DeviceID ∧ w.allocs.lookup n.DeviceID = none := by
  unfold resolveConf at h
  by_cases hd : n.DeviceID = ""
  · simp [hd] at h
  · simp only [ne_eq, hd, not_false_eq_true, if_true] at h
    rcases hv : getVfInfo env n.DeviceID with e | ⟨pf, vf⟩
    · simp [hv] at h
    · simp only [hv] at h
      rcases hal : IsAllocated env w n.DeviceID with e | b
      · simp [hal] at h
      · have hb := IsAllocated_ok _ _ _ _ hal
        simp only [hal] at h
        cases b with
        | true => simp at h
        | false =>
          simp only [Bool.false_eq_true, if_false] at h
          have hnone : w.allocs.lookup n.DeviceID = none := by
            cases hl : w.allocs.lookup n.DeviceID with
            | none => rfl
            | some x => simp [hl] at hb
          refine ⟨?_, hnone⟩
          revert h
          split
          · simp
          · rename_i n' hp
            have h2 := probeDpdk_DeviceID _ _ _ _ _ hp
            repeat' split
            all_goals simp
            all_goals (intro h; subst h; simpa using h2)

/-- A configuration that `LoadConf` returns has a device id without an allocation record. -/
theorem LoadConf_ok (env : Env) (w : World) (bytes : String) (c : NetConf)
    (h : LoadConf env w bytes = .ok c) : w.allocs.lookup c.DeviceID = none := by
  revert h
  unfold LoadConf
  split
  · simp
  · intro h
    have := resolveConf_ok _ _ _ _ h
    rw [this.1]
    exact this.2

/-- A claimed device id makes `resolveConf` fail. -/
theorem resolveConf_claimed (env : Env) (w : World) (n : NetConf)
    (h : (w.allocs.lookup n.DeviceID).isSome = true) : ∃ e, resolveConf env w n = .error e := by
  cases hr : resolveConf env w n with
  | error e => exact ⟨e, rfl⟩
  | ok c =>
    have := (resolveConf_ok _ _ _ _ hr).2
    simp [this] at h

theorem lookup_none_filter (d : String) (l : List (String × String))
    (h : l.lookup d = none) : l.filter (fun r => r.1 ≠ d) = l := by
  simp only [List.lookup_eq_none_iff, List.filter_eq_self] at h ⊢
  intro a ha
  have := h a ha
  simp at this
  simpa using fun e : a.1 = d => this e.symm

theorem lookup_filter_self (d : String) (l : List (String × String)) :
    (l.filter (fun r => r.1 ≠ d)).lookup d = none := by
  simp only [List.lookup_eq_none_iff, List.mem_filter]
  intro a ha
  have := ha.2
  simp at this
  simpa using fun e : d = a.1 => this e.symm

/-- The three shapes of the frame of `cmdAddBody`: resolution failed (nothing done, no
configuration), the side-channel arguments failed to parse (nothing done), or the steps ran on a
configuration with the resolved device id. -/
theorem applyMacOverrides_DeviceID (c : NetConf) (ea : Option EnvArgs) :
    (applyMacOverrides c ea).DeviceID = c.DeviceID := by
  unfold applyMacOverrides
  simp only
  repeat' split
  all_goals rfl

theorem cmdAddBody_cases (env : Env) (args : CmdArgs) (w : World) :
    (∃ e, LoadConf env w args.StdinData = .error e ∧
      cmdAddBody env args w = ⟨.error (.loadConf e), true, none, none, w⟩) ∨
    (∃ c e, LoadConf env w args.StdinData = .ok c ∧
      cmdAddBody env args w = ⟨.error (.parseArgs e), true, some c, none, w⟩) ∨
    (∃ c c', LoadConf env w args.StdinData = .ok c ∧ c'.DeviceID = c.DeviceID ∧
      cmdAddBody env args w = cmdAddSteps env args c' w) := by
  unfold cmdAddBody
  rcases hl : LoadConf env w args.StdinData with e | c
  · exact Or.inl ⟨e, rfl, rfl⟩
  · rcases hg : getEnvArgs env args.Args with e | ea
    · exact Or.inr (Or.inl ⟨c, e, rfl, rfl⟩)
    · exact Or.inr (Or.inr ⟨c, _, rfl, applyMacOverrides_DeviceID c ea, rfl⟩)

/-! ## Theorems: ADD and its rollback -/

/-- C1: when `cmdAdd` fails at any return site before the final print of the result and the
deferred `deleteResources`, if it ran, did not fail, then the allocation records are those of
before the call, the cached attachments are those of before the call, and the bridge port whose
name this call recorded in `BridgePortName` is no longer held by the remote side. A name has been
recorded when `BridgePortName` is non-empty: `DeleteBridgePort` reads an empty one as "no port
was created". -/
theorem cmdAdd_failure_restores_state (env : Env) (args : CmdArgs) (w : World) (e : AddErr)
    (hfail : (cmdAdd env args w).result = .error e)
    (hstep : ∀ m, e ≠ .printResult m)
    (hcomp : ∀ d, (cmdAdd env args w).rollback ≠ some (.error d)) :
    (cmdAdd env args w).world.allocs = w.allocs ∧
    (cmdAdd env args w).world.cache = w.cache ∧
    (∀ n, (cmdAdd env args w).bridgePort = some n → n ≠ "" →
      n ∉ (cmdAdd env args w).world.ports) := by
  unfold cmdAdd at hfail hcomp ⊢
  rcases cmdAddBody_cases env args w with ⟨e0, _, hb⟩ | ⟨c, e0, hl, hb⟩ | ⟨c, c', hl, hdev, hb⟩
  · simp [hb, deleteResources]
  · have hnone := LoadConf_ok _ _ _ _ hl
    simp only [hb, if_true] at hcomp ⊢
    have hok : (deleteResources env args (some c) w).1 = .ok () := by
      cases hr : (deleteResources env args (some c) w).1 with
      | error d => exact absurd (by simp [hr]) (hcomp d)
      | ok u => rfl
    have := deleteResources_ok_effect env args c w hok
    refine ⟨?_, this.2.1, ?_⟩
    · rw [this.1, lookup_none_filter _ _ hnone]
    · simp
  · have hnone := LoadConf_ok _ _ _ _ hl
    rw [← hdev] at hnone
    obtain ⟨⟨c2, hc2, hd2, hbp⟩, hcache, halloc, _, hports, hnoerr⟩ :=
      cmdAddSteps_frame env args c' w
    simp only [hb] at hfail hcomp ⊢
    by_cases herr : (cmdAddSteps env args c' w).err = true
    · simp only [herr, if_true] at hfail hcomp ⊢
      rw [hc2] at hcomp ⊢
      have hok : (deleteResources env args (some c2) (cmdAddSteps env args c' w).world).1
          = .ok () := by
        cases hr : (deleteResources env args (some c2) (cmdAddSteps env args c' w).world).1 with
        | error d => exact absurd (by simp [hr]) (hcomp d)
        | ok u => rfl
      have := deleteResources_ok_effect env args c2 _ hok
      refine ⟨?_, ?_, ?_⟩
      · rw [this.1, hd2]
        rcases halloc with h | h
        · rw [h, lookup_none_filter _ _ hnone]
        · have hf := lookup_none_filter _ _ hnone
          rw [h, hf, List.filter_cons_of_neg (by simp), hf]
      · rw [this.2.1]
        exact hcache e hfail hstep
      · intro n hn hne
        have := this.2.2.1 (by rw [hbp n hn]; exact hne)
        rwa [hbp n hn] at this
    · simp only [Bool.not_eq_true] at herr
      simp only [herr, Bool.false_eq_true, if_false] at hfail hcomp ⊢
      have := hnoerr herr e hfail hstep
      refine ⟨this.1, hcache e hfail hstep, ?_⟩
      intro n hn
      simp [this.2] at hn

/-- An ADD whose remote create call returns the port `p1` with status DOWN: it fails with the
not-UP error, the rollback succeeds, and claims, cache and remote ports are as before. -/
theorem cmdAdd_failure_restores_state_witness :
    (cmdAdd downEnv sampleArgs { }).result = .error (.createBridgePort .notUp) ∧
    (cmdAdd downEnv sampleArgs { }).rollback = some (.ok ()) ∧
    (cmdAdd downEnv sampleArgs { }).bridgePort = some "p1" ∧
    (cmdAdd downEnv sampleArgs { }).world.allocs = [] ∧
    (cmdAdd downEnv sampleArgs { }).world.cache = [] ∧
    "p1" ∉ (cmdAdd downEnv sampleArgs { }).world.ports :=
  have hr : (cmdAdd downEnv sampleArgs { }).rollback = some (.ok ()) := by decide
  have h := cmdAdd_failure_restores_state downEnv sampleArgs { } (.createBridgePort .notUp)
    (by decide) (fun m hm => by cases hm) (fun d hd => by rw [hr] at hd; cases hd)
  ⟨by decide, hr, by decide, h.1, h.2.1, h.2.2 "p1" (by decide) (by decide)⟩

/-- A frame of `cmdAddSteps` in which `err` is set carries an error. -/
theorem cmdAddSteps_err_ret (env : Env) (args : CmdArgs) (c : NetConf) (w : World)
    (h : (cmdAddSteps env args c w).err = true) :
    ∃ e, (cmdAddSteps env args c w).ret = .error e := by
  revert h
  unfold cmdAddSteps
  simp only
  repeat' split
  all_goals simp

/-- A frame of `cmdAddBody` in which `err` is set carries an error. -/
theorem cmdAddBody_err_ret (env : Env) (args : CmdArgs) (w : World)
    (h : (cmdAddBody env args w).err = true) :
    ∃ e, (cmdAddBody env args w).ret = .error e := by
  rcases cmdAddBody_cases env args w with ⟨e0, _, hb⟩ | ⟨c, e0, _, hb⟩ | ⟨c, c', _, _, hb⟩
  · exact ⟨_, by rw [hb]⟩
  · exact ⟨_, by rw [hb]⟩
  · rw [hb] at h ⊢
    exact cmdAddSteps_err_ret env args c' w h

/-- C2 (as amended): when a compensation fails during the rollback of `cmdAdd`, the rollback
ends there. Every call the deferred `deleteResources` made belongs to the failing compensation
or to an earlier one (in the order: address release, bridge-port delete, administrative VF
reset, VF release and reset, allocation release), so no later compensation was invoked; and
`cmdAdd` still returns the error of its body. -/
theorem rollback_stops_at_first_failure (env : Env) (args : CmdArgs) (w : World) (d : DelErr)
    (h : (cmdAdd env args w).rollback = some (.error d)) :
    (cmdAdd env args w).result = (cmdAddBody env args w).ret ∧
    (∃ e, (cmdAdd env args w).result = .error e) ∧
    (cmdAdd env args w).world.trace
      = (cmdAddBody env args w).world.trace
          ++ (cmdAdd env args w).world.since (cmdAddBody env args w).world ∧
    (∀ ev ∈ (cmdAdd env args w).world.since (cmdAddBody env args w).world,
      ev.stage ≤ d.stage) := by
  unfold cmdAdd at h ⊢
  by_cases herr : (cmdAddBody env args w).err = true
  · simp only [herr, if_true] at h ⊢
    refine ⟨trivial, cmdAddBody_err_ret env args w herr, ?_⟩
    cases hc : (cmdAddBody env args w).netConf with
    | none => simp [hc, deleteResources] at h
    | some c =>
      rw [hc] at h
      simp only [Option.some.injEq] at h
      obtain ⟨a, tail, ht, _, _, _, _, hstage⟩ :=
        deleteResources_calls env args c (cmdAddBody env args w).world
      have hs := since_eq_of_trace ht
      refine ⟨by rw [hs, ht], ?_⟩
      rw [hs]
      exact hstage d h
  · simp [herr] at h

/-- An ADD with an address-management plugin configured whose new port is reported DOWN and
whose address release then fails: the rollback makes the address-release call and nothing
else. -/
theorem rollback_stops_at_first_failure_witness :
    (cmdAdd ipamDelFailsEnv sampleArgs { }).rollback = some (.error (.ipamExecDel "no lease")) ∧
    (cmdAdd ipamDelFailsEnv sampleArgs { }).result = .error (.createBridgePort .notUp) ∧
    (∀ ev ∈ (cmdAdd ipamDelFailsEnv sampleArgs { }).world.since
        (cmdAddBody ipamDelFailsEnv sampleArgs { }).world, ev.stage ≤ 1) :=
  have h := rollback_stops_at_first_failure ipamDelFailsEnv sampleArgs { }
    (.ipamExecDel "no lease") (by decide)
  ⟨by decide, by decide, h.2.2.2⟩

/-- C2 (counterexample): with an address-management plugin configured, the remote side creates
the port `p1` and reports it DOWN, so the ADD fails after the VF was configured and moved; the
first compensation, the address release, fails, and none of the remaining compensations is
invoked: no bridge-port delete, no administrative VF reset, no VF release or reset, no
allocation release. The port `p1` stays on the remote side. -/
theorem rollback_skips_remaining_compensations :
    (cmdAdd ipamDelFailsEnv sampleArgs { }).result = .error (.createBridgePort .notUp) ∧
    (cmdAdd ipamDelFailsEnv sampleArgs { }).rollback = some (.error (.ipamExecDel "no lease")) ∧
    (cmdAdd ipamDelFailsEnv sampleArgs { }).world.trace
      = [.getNS "/ns/1", .fillOriginalVfInfo "d1", .applyVFConfig "d1" "", .setupVF "d1" "net1",
         .dial "x:1", .createBridgePort (produceCreateBridgePortRequest ipamConf "m1"),
         .ipamExecDel "ipam1"] ∧
    Event.deleteBridgePort "p1" ∉ (cmdAdd ipamDelFailsEnv sampleArgs { }).world.trace ∧
    Event.resetVFConfig "d1" ∉ (cmdAdd ipamDelFailsEnv sampleArgs { }).world.trace ∧
    Event.releaseVF "d1" "/ns/1" ∉ (cmdAdd ipamDelFailsEnv sampleArgs { }).world.trace ∧
    Event.resetVF "d1" ∉ (cmdAdd ipamDelFailsEnv sampleArgs { }).world.trace ∧
    Event.deleteAllocatedPCI "d1" ∉ (cmdAdd ipamDelFailsEnv sampleArgs { }).world.trace ∧
    (cmdAdd ipamDelFailsEnv sampleArgs { }).world.ports = ["p1"] := by
  decide

/-! ## Lemmas: the calls `cmdAdd` makes -/

theorem ext_refl (a : List Event) : ∃ t, a = a ++ t := ⟨[], by simp⟩

theorem ext_trans {a b c : List Event} (h1 : ∃ t, b = a ++ t) (h2 : ∃ t, c = b ++ t) :
    ∃ t, c = a ++ t := by
  obtain ⟨t1, h1⟩ := h1
  obtain ⟨t2, h2⟩ := h2
  exact ⟨t1 ++ t2, by rw [h2, h1, List.append_assoc]⟩

theorem ext_log (w : World) (e : Event) : ∃ t, (w.log e).trace = w.trace ++ t := ⟨[e], rfl⟩

theorem configureInNetns_trace (env : Env) (n : String) (w : World) :
    ∃ t, (configureInNetns env n w).2.trace = w.trace ++ t := by
  unfold configureInNetns
  simp only
  split
  · exact ext_log _ _
  · exact ext_trans (ext_log _ _) (ext_log _ _)

theorem podMac_trace (env : Env) (args : CmdArgs) (c : NetConf) (w : World) :
    ∃ t, (podMac env args c w).2.2.trace = w.trace ++ t := by
  unfold podMac
  simp only
  repeat' split
  all_goals first
    | exact ext_refl _
    | exact ext_log _ _

theorem podMac_error (env : Env) (args : CmdArgs) (c : NetConf) (w : World) (e : AddErr)
    (h : (podMac env args c w).1 = .error e) :
    (e = .pciToMacPathEmpty ∧ (podMac env args c w).2.1 = false ∧ (podMac env args c w).2.2 = w) ∨
    (e.afterApplyWithErr = true ∧ (podMac env args c w).2.1 = true) := by
  revert h
  unfold podMac
  simp only
  repeat' split
  all_goals simp
  all_goals (intro h; subst h; simp [AddErr.afterApplyWithErr])

theorem runIPAM_trace (env : Env) (args : CmdArgs) (c : NetConf) (r : Result) (w : World) :
    ∃ t, (runIPAM env args c r w).2.trace = w.trace ++ t := by
  unfold runIPAM
  simp only
  repeat' split
  all_goals first
    | exact ext_refl _
    | exact ext_log _ _
    | exact ext_trans (ext_log _ _) (configureInNetns_trace _ _ _)

theorem runIPAM_error (env : Env) (args : CmdArgs) (c : NetConf) (r : Result) (w : World)
    (e : AddErr) (h : (runIPAM env args c r w).1 = .error e) :
    e.afterApplyWithErr = true := by
  revert h
  unfold runIPAM
  simp only
  repeat' split
  all_goals simp
  all_goals (intro h; subst h; simp [AddErr.afterApplyWithErr])

theorem initConnection_trace (env : Env) (c : NetConf) (w : World) :
    ∃ t, (initConnection env c w).2.trace = w.trace ++ t := by
  rw [initConnection_snd]
  split
  · exact ext_refl _
  · exact ext_log _ _

theorem CreateBridgePort_trace (env : Env) (c : NetConf) (mac : String) (w : World) :
    ∃ t, (CreateBridgePort env c mac w).2.2.trace = w.trace ++ t := by
  unfold CreateBridgePort
  simp only
  repeat' split
  all_goals first
    | exact initConnection_trace _ _ _
    | exact ext_trans (initConnection_trace _ _ _) ⟨_, clientCreateBridgePort_trace _ _ _⟩

theorem SaveAllocatedPCI_trace (env : Env) (d n : String) (w : World) :
    (SaveAllocatedPCI env d n w).2.trace = w.trace ++ [.saveAllocatedPCI d n] := by
  unfold SaveAllocatedPCI
  simp only
  split <;> rfl

theorem SaveNetConf_trace (env : Env) (args : CmdArgs) (c : NetConf) (w : World) :
    (SaveNetConf env args c w).2.trace = w.trace ++ [.saveNetConf (cRefPathOf args)] := by
  unfold SaveNetConf
  simp only
  split <;> rfl

/-- A failure of `cmdAddSteps` at a site after `sm.ApplyVFConfig` that holds its error in `err`:
`err` is set and the calls made start with the namespace lookup, the read of the VF state and
the `ApplyVFConfig` call. -/
theorem cmdAddSteps_applied (env : Env) (args : CmdArgs) (c : NetConf) (w : World) (e : AddErr)
    (h : (cmdAddSteps env args c w).ret = .error e) (hs : e.afterApplyWithErr = true) :
    (cmdAddSteps env args c w).err = true ∧
    ∃ t, (cmdAddSteps env args c w).world.trace
      = (((w.log (.getNS args.Netns)).log (.fillOriginalVfInfo c.DeviceID)).log
          (.applyVFConfig c.DeviceID c.MAC)).trace ++ t := by
  revert h hs
  unfold cmdAddSteps
  simp only [nsGetNS_snd, FillOriginalVfInfo_snd, ApplyVFConfig_snd, PrintResult_snd]
  repeat' split
  all_goals simp only [Except.error.injEq, reduceCtorEq, false_implies, true_and, implies_true]
  all_goals intro h hs
  all_goals subst h
  all_goals try (simp [AddErr.afterApplyWithErr] at hs; done)
  · refine ⟨?_, podMac_trace _ _ _ _⟩
    rcases podMac_error _ _ _ _ _ (by assumption) with ⟨h1, _⟩ | ⟨_, h2⟩
    · subst h1
      simp [AddErr.afterApplyWithErr] at hs
    · exact h2
  all_goals
    repeat' first
      | exact podMac_trace _ _ _ _
      | refine ext_trans ?_ (CreateBridgePort_trace _ _ _ _)
      | refine ext_trans ?_ (runIPAM_trace _ _ _ _ _)
      | refine ext_trans ?_ ⟨_, SaveAllocatedPCI_trace _ _ _ _⟩
      | refine ext_trans ?_ ⟨_, SaveNetConf_trace _ _ _ _⟩

/-- The empty-`PciToMacPath` return of `cmdAddSteps` leaves `err` nil and has made the namespace
lookup, the read of the VF state and the `ApplyVFConfig` call, nothing else. -/
theorem cmdAddSteps_pciToMacPathEmpty (env : Env) (args : CmdArgs) (c : NetConf) (w : World)
    (h : (cmdAddSteps env args c w).ret = .error .pciToMacPathEmpty) :
    (cmdAddSteps env args c w).err = false ∧
    (cmdAddSteps env args c w).world
      = ((w.log (.getNS args.Netns)).log (.fillOriginalVfInfo c.DeviceID)).log
          (.applyVFConfig c.DeviceID c.MAC) := by
  revert h
  unfold cmdAddSteps
  simp only [nsGetNS_snd, FillOriginalVfInfo_snd, ApplyVFConfig_snd, PrintResult_snd]
  repeat' split
  all_goals simp only [Except.error.injEq, reduceCtorEq, false_implies, true_and, implies_true]
  all_goals intro h
  all_goals try subst h
  · rcases podMac_error _ _ _ _ _ (by assumption) with ⟨_, h1, h2⟩ | ⟨h1, _⟩
    · exact ⟨h1, h2⟩
    · simp [AddErr.afterApplyWithErr] at h1
  · have := runIPAM_error _ _ _ _ _ _ (by assumption)
    simp [AddErr.afterApplyWithErr] at this

theorem cmdAdd_result (env : Env) (args : CmdArgs) (w : World) :
    (cmdAdd env args w).result = (cmdAddBody env args w).ret := by
  unfold cmdAdd
  simp only
  split <;> rfl

theorem cmdAdd_of_err (env : Env) (args : CmdArgs) (w : World)
    (h : (cmdAddBody env args w).err = true) :
    cmdAdd env args w
      = ⟨(cmdAddBody env args w).ret,
          some (deleteResources env args (cmdAddBody env args w).netConf
            (cmdAddBody env args w).world).1,
          (cmdAddBody env args w).bridgePort,
          (deleteResources env args (cmdAddBody env args w).netConf
            (cmdAddBody env args w).world).2⟩ := by
  unfold cmdAdd
  simp [h]

theorem cmdAdd_of_not_err (env : Env) (args : CmdArgs) (w : World)
    (h : (cmdAddBody env args w).err = false) :
    cmdAdd env args w
      = ⟨(cmdAddBody env args w).ret, none, (cmdAddBody env args w).bridgePort,
          (cmdAddBody env args w).world⟩ := by
  unfold cmdAdd
  simp [h]

/-- C3 (as amended): when `cmdAdd` fails after `sm.ApplyVFConfig` has succeeded, at a return
site that holds the error in the local variable `err` (every later site but the
empty-`PciToMacPath` return and the final print), the deferred `deleteResources` runs, and
unless the address release or the bridge-port delete it starts with fails, the log of calls
shows `ResetVFConfig` for the device after the `ApplyVFConfig` call. And an ADD that fails
because `PciToMacPath` is empty has made no remote bridge-port call and leaves the remote ports
as they were. -/
theorem cmdAdd_resetAdmin_after_apply (env : Env) (args : CmdArgs) (w : World) :
    (∀ e, (cmdAdd env args w).result = .error e → e.afterApplyWithErr = true →
      (∃ r, (cmdAdd env args w).rollback = some r) ∧
      ((∀ m, (cmdAdd env args w).rollback ≠ some (.error (.ipamExecDel m))) →
       (∀ x, (cmdAdd env args w).rollback ≠ some (.error (.deleteBridgePort x))) →
       ∃ d mac pre post,
        (cmdAdd env args w).world.trace
          = w.trace ++ pre ++ [Event.applyVFConfig d mac] ++ post ∧
        Event.resetVFConfig d ∈ post)) ∧
    ((cmdAdd env args w).result = .error .pciToMacPathEmpty →
      (cmdAdd env args w).world.ports = w.ports ∧
      (cmdAdd env args w).world.trace = w.trace ++ (cmdAdd env args w).world.since w ∧
      ∀ ev ∈ (cmdAdd env args w).world.since w, ev.isRemote = false) := by
  rw [cmdAdd_result]
  rcases cmdAddBody_cases env args w with ⟨e0, _, hb⟩ | ⟨c, e0, _, hb⟩ | ⟨c, c', _, _, hb⟩
  · simp [hb, AddErr.afterApplyWithErr]
  · simp [hb, AddErr.afterApplyWithErr]
  · constructor
    · intro e he hs
      rw [hb] at he
      obtain ⟨herr, t, ht⟩ := cmdAddSteps_applied env args c' w e he hs
      obtain ⟨⟨c2, hc2, hd2, _⟩, _⟩ := cmdAddSteps_frame env args c' w
      rw [cmdAdd_of_err env args w (by rw [hb]; exact herr), hb, hc2]
      refine ⟨⟨_, rfl⟩, fun h1 h2 => ?_⟩
      obtain ⟨a, tail, hdt, _, htail, hne, _, _⟩ :=
        deleteResources_calls env args c2 (cmdAddSteps env args c' w).world
      have hne' := hne (fun m hm => h1 m (by rw [hm])) (fun x hx => h2 x (by rw [hx]))
      rcases htail with h0 | ⟨rest, h0⟩
      · exact absurd h0 hne'
      · refine ⟨c'.DeviceID, c'.MAC,
          [.getNS args.Netns, .fillOriginalVfInfo c'.DeviceID], t ++ (a ++ tail), ?_, ?_⟩
        · rw [hdt, ht]
          simp
        · rw [h0, hd2]
          simp
    · intro he
      rw [hb] at he
      obtain ⟨herr, hw⟩ := cmdAddSteps_pciToMacPathEmpty env args c' w he
      rw [cmdAdd_of_not_err env args w (by rw [hb]; exact herr), hb]
      simp only [hw]
      have ht : (((w.log (.getNS args.Netns)).log (.fillOriginalVfInfo c'.DeviceID)).log
          (.applyVFConfig c'.DeviceID c'.MAC)).trace
            = w.trace ++ [.getNS args.Netns, .fillOriginalVfInfo c'.DeviceID,
                .applyVFConfig c'.DeviceID c'.MAC] := by simp
      have hs := since_eq_of_trace ht
      refine ⟨rfl, by rw [hs, ht], ?_⟩
      rw [hs]
      intro ev hev
      simp at hev
      rcases hev with h | h | h <;> (subst h; rfl)

/-- An ADD in standard mode whose VF cannot be moved into the namespace: the rollback runs and
the administrative reset follows the `ApplyVFConfig` call. -/
theorem cmdAdd_resetAdmin_after_apply_witness :
    (cmdAdd setupFailsCleanEnv sampleArgs { }).result = .error (.setupVF "busy") ∧
    (cmdAdd setupFailsCleanEnv sampleArgs { }).rollback = some (.ok ()) ∧
    ∃ d mac pre post,
      (cmdAdd setupFailsCleanEnv sampleArgs { }).world.trace
        = ({ } : World).trace ++ pre ++ [Event.applyVFConfig d mac] ++ post ∧
      Event.resetVFConfig d ∈ post :=
  have hr : (cmdAdd setupFailsCleanEnv sampleArgs { }).rollback = some (.ok ()) := by decide
  ⟨by decide, hr,
    ((cmdAdd_resetAdmin_after_apply setupFailsCleanEnv sampleArgs { }).1 (.setupVF "busy")
      (by decide) (by decide)).2
      (fun m hm => by rw [hr] at hm; cases hm) (fun x hx => by rw [hr] at hx; cases hx)⟩

/-- C3 (counterexample): two ADDs that fail after `sm.ApplyVFConfig` has succeeded and return
without `ResetVFConfig` having been called. In the first the VF is in accelerated mode and
`PciToMacPath` is empty: `cmdAdd` returns the error without assigning it to `err`, and the
deferred function does not call `deleteResources` at all. In the second, `SetupVF` fails with an
address-management plugin configured and the address release, the first compensation, fails. -/
theorem cmdAdd_returns_without_resetAdmin :
    ((cmdAdd dpdkEnv sampleArgs { }).result = .error .pciToMacPathEmpty ∧
      (cmdAdd dpdkEnv sampleArgs { }).rollback = none ∧
      (cmdAdd dpdkEnv sampleArgs { }).world.trace
        = [.getNS "/ns/1", .fillOriginalVfInfo "d1", .applyVFConfig "d1" ""] ∧
      Event.resetVFConfig "d1" ∉ (cmdAdd dpdkEnv sampleArgs { }).world.trace) ∧
    ((cmdAdd setupFailsEnv sampleArgs { }).result = .error (.setupVF "busy") ∧
      (cmdAdd setupFailsEnv sampleArgs { }).rollback = some (.error (.ipamExecDel "no lease")) ∧
      (cmdAdd setupFailsEnv sampleArgs { }).world.trace
        = [.getNS "/ns/1", .fillOriginalVfInfo "d1", .applyVFConfig "d1" "",
           .setupVF "d1" "net1", .ipamExecDel "ipam1"] ∧
      Event.resetVFConfig "d1" ∉ (cmdAdd setupFailsEnv sampleArgs { }).world.trace) := by
  decide

/-- C4: when the device id of the merged request is already claimed, `LoadConf` returns an
error and no configuration; `cmdAdd` fails with that error, the deferred `deleteResources` gets
the nil configuration and returns at once, and the world is exactly as before: no call of any
kind has been logged (no VF manager call, no bridge-port call, no address-management call) and
the allocation records, the claim included, are untouched. When the VF can be identified and the
allocation store answers, the error is the already-allocated one. -/
theorem cmdAdd_already_allocated (env : Env) (args : CmdArgs) (w : World) (n : NetConf)
    (hm : loadMerged env args.StdinData = .ok n)
    (hc : (w.allocs.lookup n.DeviceID).isSome = true) :
    (∃ e, LoadConf env w args.StdinData = .error e) ∧
    (∃ e, (cmdAdd env args w).result = .error (.loadConf e)) ∧
    (cmdAdd env args w).rollback = some (.ok ()) ∧
    (cmdAdd env args w).world = w ∧
    (n.DeviceID ≠ "" → (∃ v, getVfInfo env n.DeviceID = .ok v) →
      env.IsAllocatedErr n.DeviceID = none →
      LoadConf env w args.StdinData = .error (.alreadyAllocated n.DeviceID)) := by
  obtain ⟨e, he⟩ := resolveConf_claimed env w n hc
  have hl : LoadConf env w args.StdinData = .error e := by
    simp [LoadConf, hm, he]
  have hb : cmdAddBody env args w = ⟨.error (.loadConf e), true, none, none, w⟩ := by
    simp [cmdAddBody, hl]
  refine ⟨⟨e, hl⟩, ⟨e, ?_⟩, ?_, ?_, ?_⟩
  · rw [cmdAdd_result, hb]
  · rw [cmdAdd_of_err env args w (by rw [hb]), hb]
    rfl
  · rw [cmdAdd_of_err env args w (by rw [hb]), hb]
    rfl
  · intro hd ⟨v, hv⟩ hs
    have hi : IsAllocated env w n.DeviceID = .ok true := by
      simp [IsAllocated, hs, hc]
    simp [LoadConf, hm, resolveConf, hd, hv, hi]

/-- An ADD for VF `d1` while `d1` is claimed: already-allocated error, nothing done. -/
theorem cmdAdd_already_allocated_witness :
    loadMerged goodEnv sampleArgs.StdinData = .ok sampleConf ∧
    (claimedWorld.allocs.lookup sampleConf.DeviceID).isSome = true ∧
    LoadConf goodEnv claimedWorld sampleArgs.StdinData = .error (.alreadyAllocated "d1") ∧
    (cmdAdd goodEnv sampleArgs claimedWorld).world = claimedWorld :=
  have h := cmdAdd_already_allocated goodEnv sampleArgs claimedWorld sampleConf
    (by decide) (by decide)
  ⟨by decide, by decide, h.2.2.2.2 (by decide) ⟨("pf0", 1), by decide⟩ (by decide), h.2.2.2.1⟩

/-! ## Theorems: DEL -/

theorem cmdDel_of_lookup_none (env : Env) (args : CmdArgs) (w : World)
    (h : w.cache.lookup (cRefPathOf args) = none) :
    cmdDel env args w = (.ok (), w) := by
  simp [cmdDel, LoadConfFromCache, ReadScratchNetConf, h]

/-- C6: when no cached attachment exists under the key of (container id, interface name),
`cmdDel` returns success and the world is exactly as before: no call has been logged (no
bridge-port call, no address release, no VF manager call), no allocation record and no cache
entry has been removed. -/
theorem cmdDel_without_cache (env : Env) (args : CmdArgs) (w : World)
    (h : w.cache.lookup (cRefPathOf args) = none) :
    cmdDel env args w = (.ok (), w) :=
  cmdDel_of_lookup_none env args w h

/-- A DEL for a container that has no cached attachment, in a world where VF `d1` is claimed. -/
theorem cmdDel_without_cache_witness :
    claimedWorld.cache.lookup (cRefPathOf sampleArgs) = none ∧
    cmdDel goodEnv sampleArgs claimedWorld = (.ok (), claimedWorld) :=
  ⟨by decide, cmdDel_without_cache goodEnv sampleArgs claimedWorld (by decide)⟩

theorem CleanCachedNetConf_ok_lookup (env : Env) (path : String) (w : World)
    (h : (CleanCachedNetConf env path w).1 = none) :
    (CleanCachedNetConf env path w).2.cache.lookup path = none := by
  revert h
  unfold CleanCachedNetConf
  simp only
  split
  · simp
  · intro _
    exact lookup_filter_self _ _

/-- C5: whenever a DEL succeeds, a second DEL for the same container id and interface name, run
right after it on the world the first one left, succeeds too. -/
theorem cmdDel_twice (env : Env) (args : CmdArgs) (w : World)
    (h : (cmdDel env args w).1 = .ok ()) :
    (cmdDel env args (cmdDel env args w).2).1 = .ok () := by
  rcases hl : LoadConfFromCache env w args with e | ⟨c, path⟩
  · have h1 : cmdDel env args w = (.ok (), w) := by simp [cmdDel, hl]
    rw [h1]
    simp [cmdDel, hl]
  · have hp : path = cRefPathOf args := by
      revert hl
      unfold LoadConfFromCache
      simp only
      repeat' split
      all_goals simp
      all_goals (intro _ h; exact h.symm)
    subst hp
    have hnone : (cmdDel env args w).2.cache.lookup (cRefPathOf args) = none := by
      revert h
      unfold cmdDel
      simp only [hl]
      repeat' split
      all_goals simp only [reduceCtorEq, false_implies]
      intro _
      exact CleanCachedNetConf_ok_lookup _ _ _ (by assumption)
    rw [cmdDel_of_lookup_none env args _ hnone]

/-- A DEL of the cached attachment of `sampleArgs` succeeds, removes claim, cache entry and
remote port, and the DEL repeated on the resulting world succeeds as well. -/
theorem cmdDel_twice_witness :
    (cmdDel cachedEnv sampleArgs attachedWorld).1 = .ok () ∧
    (cmdDel cachedEnv sampleArgs attachedWorld).2.allocs = [] ∧
    (cmdDel cachedEnv sampleArgs attachedWorld).2.cache = [] ∧
    (cmdDel cachedEnv sampleArgs attachedWorld).2.ports = [] ∧
    (cmdDel cachedEnv sampleArgs (cmdDel cachedEnv sampleArgs attachedWorld).2).1 = .ok () :=
  ⟨by decide, by decide, by decide, by decide,
    cmdDel_twice cachedEnv sampleArgs attachedWorld (by decide)⟩

/-! ## Theorems: the bridge port of a failed ADD -/

theorem podMac_error_ne (env : Env) (args : CmdArgs) (c : NetConf) (w : World) (e : AddErr)
    (h : (podMac env args c w).1 = .error e) : ∀ x, e ≠ .createBridgePort x := by
  revert h
  unfold podMac
  simp only
  repeat' split
  all_goals simp
  all_goals (intro h; subst h; simp)

theorem runIPAM_error_ne (env : Env) (args : CmdArgs) (c : NetConf) (r : Result) (w : World)
    (e : AddErr) (h : (runIPAM env args c r w).1 = .error e) : ∀ x, e ≠ .createBridgePort x := by
  revert h
  unfold runIPAM
  simp only
  repeat' split
  all_goals simp
  all_goals (intro h; subst h; simp)

theorem cmdAddSteps_notUp (env : Env) (args : CmdArgs) (c : NetConf) (w : World)
    (h : (cmdAddSteps env args c w).ret = .error (.createBridgePort .notUp)) :
    (cmdAddSteps env args c w).err = true ∧
    ∃ c2, (cmdAddSteps env args c w).netConf = some c2 ∧
      (cmdAddSteps env args c w).bridgePort = some c2.BridgePortName := by
  revert h
  unfold cmdAddSteps
  simp only
  repeat' split
  all_goals simp only [Except.error.injEq, reduceCtorEq, false_implies, true_and, implies_true]
  all_goals intro h
  · exact absurd h (podMac_error_ne _ _ _ _ _ (by assumption) _)
  · simp only [AddErr.createBridgePort.injEq] at h
    subst h
    exact ⟨_, rfl, rfl⟩
  · exact absurd h (runIPAM_error_ne _ _ _ _ _ _ (by assumption) _)

theorem cmdAdd_notUp (env : Env) (args : CmdArgs) (w : World)
    (h : (cmdAdd env args w).result = .error (.createBridgePort .notUp)) :
    ∃ c, (cmdAddBody env args w).netConf = some c ∧
      (cmdAdd env args w).bridgePort = some c.BridgePortName ∧
      (cmdAdd env args w).rollback
        = some (deleteResources env args (some c) (cmdAddBody env args w).world).1 := by
  rw [cmdAdd_result] at h
  rcases cmdAddBody_cases env args w with ⟨e0, _, hb⟩ | ⟨c, e0, _, hb⟩ | ⟨c, c', _, _, hb⟩
  · simp [hb] at h
  · simp [hb] at h
  · rw [hb] at h
    obtain ⟨herr, c2, hc2, hbp⟩ := cmdAddSteps_notUp env args c' w h
    rw [cmdAdd_of_err env args w (by rw [hb]; exact herr), hb]
    exact ⟨c2, hc2, hbp, by rw [hc2]⟩

/-- C9: when the remote create call returns a port, `CreateBridgePort` stores the returned name
in `BridgePortName` whatever the status; it returns the not-UP error when the status is not UP
and success when it is UP, after that one remote call and nothing else (no second look at the
status); the delete request built from the resulting configuration names exactly that port, and
a later `DeleteBridgePort` on it makes no call other than a dial and a delete of that name, and
does make that delete when the name is non-empty and the connection can be initialised. In
`cmdAdd`, a not-UP failure hands the configuration that holds the stored name to the deferred
`deleteResources`. -/
theorem CreateBridgePort_stores_name (env : Env) (conf : NetConf) (mac : String) (w : World)
    (bp : BridgePort)
    (hconn : (initConnection env conf w).1 = .ok ())
    (hrpc : (clientCreateBridgePort env (produceCreateBridgePortRequest conf mac)
              (initConnection env conf w).2).1 = .ok bp) :
    (bp.OperStatus ≠ BPOperStatus.UP → (CreateBridgePort env conf mac w).1 = .error .notUp) ∧
    (bp.OperStatus = BPOperStatus.UP → (CreateBridgePort env conf mac w).1 = .ok ()) ∧
    (CreateBridgePort env conf mac w).2.1 = { conf with BridgePortName := bp.Name } ∧
    (CreateBridgePort env conf mac w).2.2.trace
      = (initConnection env conf w).2.trace
          ++ [Event.createBridgePort (produceCreateBridgePortRequest conf mac)] ∧
    produceDeleteBridgePortRequest (CreateBridgePort env conf mac w).2.1 = { Name := bp.Name } ∧
    (∀ (env2 : Env) (w2 : World),
      (∃ t, (DeleteBridgePort env2 (CreateBridgePort env conf mac w).2.1 w2).2.trace
              = w2.trace ++ t ∧
        ∀ ev ∈ t, ev = Event.dial conf.XpuInfraMgrConn ∨ ev = Event.deleteBridgePort bp.Name) ∧
      (bp.Name ≠ "" →
        (initConnection env2 (CreateBridgePort env conf mac w).2.1 w2).1 = .ok () →
        Event.deleteBridgePort bp.Name
          ∈ (DeleteBridgePort env2 (CreateBridgePort env conf mac w).2.1 w2).2.trace)) ∧
    (∀ (args : CmdArgs) (w0 : World),
      (cmdAdd env args w0).result = .error (.createBridgePort .notUp) →
      ∃ c, (cmdAddBody env args w0).netConf = some c ∧
        (cmdAdd env args w0).bridgePort = some c.BridgePortName ∧
        (cmdAdd env args w0).rollback
          = some (deleteResources env args (some c) (cmdAddBody env args w0).world).1) := by
  have hconf : (CreateBridgePort env conf mac w).2.1 = { conf with BridgePortName := bp.Name } := by
    by_cases hup : bp.OperStatus = BPOperStatus.UP <;> simp [CreateBridgePort, hconn, hrpc, hup]
  refine ⟨?_, ?_, hconf, ?_, ?_, ?_, fun args w0 h => cmdAdd_notUp env args w0 h⟩
  · intro hup; simp [CreateBridgePort, hconn, hrpc, hup]
  · intro hup; simp [CreateBridgePort, hconn, hrpc, hup]
  · by_cases hup : bp.OperStatus = BPOperStatus.UP <;>
      simp [CreateBridgePort, hconn, hrpc, hup, clientCreateBridgePort_trace]
  · rw [hconf]; rfl
  · intro env2 w2
    rw [hconf]
    refine ⟨DeleteBridgePort_trace env2 _ w2, fun hn hc2 => ?_⟩
    unfold DeleteBridgePort
    simp only [hn, if_false, hc2]
    repeat' split
    all_goals simp [clientDeleteBridgePort_trace, produceDeleteBridgePortRequest]

/-- The remote-port case of C9 at a concrete remote side that reports the new port DOWN. -/
theorem CreateBridgePort_stores_name_witness :
    (initConnection downEnv sampleConf { }).1 = .ok () ∧
    (clientCreateBridgePort downEnv (produceCreateBridgePortRequest sampleConf "m1")
        (initConnection downEnv sampleConf { }).2).1 = .ok { Name := "p1", OperStatus := .DOWN } ∧
    (CreateBridgePort downEnv sampleConf "m1" { }).1 = .error .notUp ∧
    (CreateBridgePort downEnv sampleConf "m1" { }).2.1 = { sampleConf with BridgePortName := "p1" } ∧
    produceDeleteBridgePortRequest (CreateBridgePort downEnv sampleConf "m1" { }).2.1
      = { Name := "p1" } :=
  have h := CreateBridgePort_stores_name downEnv sampleConf "m1" { }
    { Name := "p1", OperStatus := .DOWN } (by decide) (by decide)
  ⟨by decide, by decide, h.1 (by decide), h.2.2.1, h.2.2.2.2.1⟩

/-! ## Lemmas: what `resolveConf` returns -/

theorem probeDpdk_ok (env : Env) (n n' : NetConf) (i : String) (e : Option String)
    (h : probeDpdk env n i e = .ok n') :
    n' = { n with DPDKMode := n'.DPDKMode } ∧
    ((e = none ∧ i ≠ "") → n'.DPDKMode = n.DPDKMode) ∧
    ((e ≠ none ∨ i = "") → env.HasDpdkDriver n.DeviceID = .ok n'.DPDKMode) := by
  unfold probeDpdk at h
  split at h
  · split at h
    · simp at h
    · simp only [Except.ok.injEq] at h
      subst h
      refine ⟨rfl, fun hc => ?_, fun _ => by assumption⟩
      simp_all
  · simp only [Except.ok.injEq] at h
    subst h
    refine ⟨rfl, fun _ => rfl, fun hc => ?_⟩
    simp_all

/-- The shape of a configuration `resolveConf` returns, with `i` the interface name the lookup
found: it is the given one with the owning device and function index filled in, `DPDKMode` as the
probe left it, and `HostIFName` set to `i` when `i` is non-empty; one of `i` non-empty and
`DPDKMode` holds; the two bridge fields are not both set. -/
theorem resolveConf_ok_shape (env : Env) (w : World) (n c : NetConf)
    (h : resolveConf env w n = .ok c) :
    ∃ pf vf n1,
      probeDpdk env { n with VFID := vf, Master := pf } (env.GetVFLinkNames n.DeviceID).1
        (env.GetVFLinkNames n.DeviceID).2 = .ok n1 ∧
      c = (if (env.GetVFLinkNames n.DeviceID).1 ≠ "" then
            { n1 with OrigVfState :=
                { n1.OrigVfState with HostIFName := (env.GetVFLinkNames n.DeviceID).1 } }
           else n1) ∧
      ¬ ((env.GetVFLinkNames n.DeviceID).1 = "" ∧ c.DPDKMode = false) ∧
      ¬ (c.LogicalBridge ≠ "" ∧ c.LogicalBridges.length > 0) := by
  unfold resolveConf at h
  by_cases hd : n.DeviceID = ""
  · simp [hd] at h
  · simp only [ne_eq, hd, not_false_eq_true, if_true] at h
    rcases hv : getVfInfo env n.DeviceID with e | ⟨pf, vf⟩
    · simp [hv] at h
    · simp only [hv] at h
      rcases hal : IsAllocated env w n.DeviceID with e | b
      · simp [hal] at h
      · simp only [hal] at h
        cases b with
        | true => simp at h
        | false =>
          simp only [Bool.false_eq_true, if_false] at h
          rcases hp : probeDpdk env { n with VFID := vf, Master := pf }
            (env.GetVFLinkNames n.DeviceID).1 (env.GetVFLinkNames n.DeviceID).2 with e | n1
          · simp [hp] at h
          · simp only [hp] at h
            refine ⟨pf, vf, n1, hp, ?_⟩
            revert h
            repeat' split
            all_goals simp
            all_goals intro h
            all_goals subst h
            all_goals simp_all

/-- What `resolveConf` leaves as it found it: the bridge fields, the runtime MAC, and, when the
lookup found no interface name, the `HostIFName` of the request. -/
theorem resolveConf_ok_fields (env : Env) (w : World) (n c : NetConf)
    (h : resolveConf env w n = .ok c) :
    c.LogicalBridge = n.LogicalBridge ∧ c.LogicalBridges = n.LogicalBridges ∧
    c.RuntimeConfig = n.RuntimeConfig ∧ c.MAC = n.MAC ∧
    ((env.GetVFLinkNames n.DeviceID).1 ≠ "" →
      c.OrigVfState.HostIFName = (env.GetVFLinkNames n.DeviceID).1) ∧
    ((env.GetVFLinkNames n.DeviceID).1 = "" →
      c.OrigVfState.HostIFName = n.OrigVfState.HostIFName) := by
  obtain ⟨pf, vf, n1, hp, hc, _, _⟩ := resolveConf_ok_shape env w n c h
  have h1 := (probeDpdk_ok _ _ _ _ _ hp).1
  by_cases hi : (env.GetVFLinkNames n.DeviceID).1 = ""
  · simp only [hi, ne_eq, not_true_eq_false, if_false] at hc
    rw [hc, h1]
    simp [hi]
  · simp only [ne_eq, hi, not_false_eq_true, if_true] at hc
    rw [hc, h1]
    simp [hi]

/-! ## Theorems: config resolution -/

/-- C11: when the merged configuration (request plus host-wide defaults) has a non-empty
`LogicalBridge` and a non-empty `LogicalBridges` list, `LoadConf` returns an error and no
configuration, whatever the other fields, the state and the collaborators are. -/
theorem LoadConf_both_bridges_fails (env : Env) (w : World) (bytes : String) (n : NetConf)
    (hm : loadMerged env bytes = .ok n)
    (h1 : n.LogicalBridge ≠ "") (h2 : n.LogicalBridges ≠ []) :
    (∃ e, LoadConf env w bytes = .error e) ∧ ∀ c, LoadConf env w bytes ≠ .ok c := by
  have key : ∀ c, LoadConf env w bytes ≠ .ok c := by
    intro c hc
    have hr : resolveConf env w n = .ok c := by
      simpa [LoadConf, hm] using hc
    obtain ⟨_, _, _, _, _, _, hb⟩ := resolveConf_ok_shape env w n c hr
    obtain ⟨e1, e2, _⟩ := resolveConf_ok_fields env w n c hr
    apply hb
    rw [e1, e2]
    exact ⟨h1, List.length_pos.2 h2⟩
  refine ⟨?_, key⟩
  cases hl : LoadConf env w bytes with
  | error e => exact ⟨e, rfl⟩
  | ok c => exact absurd hl (key c)

/-- A request that names the single bridge `br1` on a host whose configuration file supplies
the bridge list `[b2]`: the merged configuration has both, and resolution fails on that. -/
theorem LoadConf_both_bridges_fails_witness :
    loadMerged flatBridgesEnv "cfg" = .ok { sampleConf with LogicalBridges := ["b2"] } ∧
    LoadConf flatBridgesEnv { } "cfg" = .error .bothBridges ∧
    ∃ e, LoadConf flatBridgesEnv { } "cfg" = .error e :=
  ⟨by decide, by decide,
    (LoadConf_both_bridges_fails flatBridgesEnv { } "cfg"
      { sampleConf with LogicalBridges := ["b2"] } (by decide) (by decide) (by decide)).1⟩

/-- C12 (as amended): in every configuration `LoadConf` returns, at least one of the two holds:
`OrigVfState.HostIFName` is non-empty, or `DPDKMode` is true. Exactly one holds when the merged
request carries neither a `DPDKMode` nor an `OrigVfState.HostIFName` of its own and the
interface-name lookup does not return a name together with an error. When the lookup finds no
name and the VF is not bound to a DPDK driver, resolution fails, with the unsupported-device
error once the VF has been identified and found unclaimed. -/
theorem LoadConf_mode (env : Env) (w : World) (bytes : String) (n : NetConf)
    (hm : loadMerged env bytes = .ok n) :
    (∀ c, LoadConf env w bytes = .ok c →
      (c.OrigVfState.HostIFName ≠ "" ∨ c.DPDKMode = true) ∧
      (n.DPDKMode = false → n.OrigVfState.HostIFName = "" →
        ((env.GetVFLinkNames n.DeviceID).1 ≠ "" → (env.GetVFLinkNames n.DeviceID).2 = none) →
        ¬ (c.OrigVfState.HostIFName ≠ "" ∧ c.DPDKMode = true))) ∧
    ((env.GetVFLinkNames n.DeviceID).1 = "" → env.HasDpdkDriver n.DeviceID = .ok false →
      (∃ e, LoadConf env w bytes = .error e) ∧
      (n.DeviceID ≠ "" → (∃ v, getVfInfo env n.DeviceID = .ok v) →
        IsAllocated env w n.DeviceID = .ok false →
        LoadConf env w bytes = .error (.unsupportedDevice n.DeviceID))) := by
  have hL : LoadConf env w bytes = resolveConf env w n := by simp [LoadConf, hm]
  rw [hL]
  constructor
  · intro c hc
    obtain ⟨pf, vf, n1, hp, hshape, hone, _⟩ := resolveConf_ok_shape env w n c hc
    obtain ⟨_, _, _, _, hname1, hname0⟩ := resolveConf_ok_fields env w n c hc
    obtain ⟨_, hkeep, _⟩ := probeDpdk_ok _ _ _ _ _ hp
    have hmode : c.DPDKMode = n1.DPDKMode := by
      rw [hshape]; split <;> rfl
    by_cases hi : (env.GetVFLinkNames n.DeviceID).1 = ""
    · have hd : c.DPDKMode = true := by
        cases hcd : c.DPDKMode with
        | true => rfl
        | false => exact absurd ⟨hi, hcd⟩ hone
      refine ⟨Or.inr hd, fun _ h0 _ hboth => ?_⟩
      rw [hname0 hi, h0] at hboth
      exact hboth.1 rfl
    · refine ⟨Or.inl (by rw [hname1 hi]; exact hi), fun hd0 _ herr hboth => ?_⟩
      have := hkeep ⟨herr hi, hi⟩
      rw [hmode, this] at hboth
      simp [hd0] at hboth
  · intro hi hdrv
    have hno : ∀ c, resolveConf env w n ≠ .ok c := by
      intro c hc
      obtain ⟨pf, vf, n1, hp, hshape, hone, _⟩ := resolveConf_ok_shape env w n c hc
      obtain ⟨_, _, hprobe⟩ := probeDpdk_ok _ _ _ _ _ hp
      have hmode : c.DPDKMode = n1.DPDKMode := by
        rw [hshape]; split <;> rfl
      have := hprobe (Or.inr hi)
      simp only [hdrv, Except.ok.injEq] at this
      exact hone ⟨hi, by rw [hmode, ← this]⟩
    constructor
    · cases hr : resolveConf env w n with
      | error e => exact ⟨e, rfl⟩
      | ok c => exact absurd hr (hno c)
    · intro hd ⟨v, hv⟩ hal
      simp [resolveConf, hd, hv, hal, probeDpdk, hi, hdrv]

/-- A request without mode fields of its own for a VF with the interface `vf1`: the returned
configuration has the interface name and is not in accelerated mode. -/
theorem LoadConf_mode_witness :
    loadMerged goodEnv "cfg" = .ok sampleConf ∧
    LoadConf goodEnv { } "cfg"
      = .ok { sampleConf with
              VFID := 1, Master := "pf0", OrigVfState := { HostIFName := "vf1" } } ∧
    ¬ (({ sampleConf with
          VFID := 1, Master := "pf0", OrigVfState := { HostIFName := "vf1" } } : NetConf
        ).OrigVfState.HostIFName ≠ "" ∧
       ({ sampleConf with
          VFID := 1, Master := "pf0", OrigVfState := { HostIFName := "vf1" } } : NetConf
        ).DPDKMode = true) ∧
    LoadConf noModeEnv { } "cfg" = .error (.unsupportedDevice "d1") :=
  have h := LoadConf_mode goodEnv { } "cfg" sampleConf (by decide)
  have h2 := LoadConf_mode noModeEnv { } "cfg" sampleConf (by decide)
  ⟨by decide, by decide,
    (h.1 _ (by decide)).2 (by decide) (by decide) (fun _ => by decide),
    (h2.2 (by decide) (by decide)).2 (by decide) ⟨("pf0", 1), by decide⟩ (by decide)⟩

/-- C12 (counterexample): two requests on which `LoadConf` succeeds and returns a configuration
in which both hold. In the first the request carries `DPDKMode: true` and the VF has the
interface `vf1`: the lookup finds the name, the driver probe is skipped, and the carried
`DPDKMode` stays. In the second the request carries `OrigVfState.HostIFName: old0` and the VF has
no interface but a DPDK driver: accelerated mode is set and the carried name stays. -/
theorem LoadConf_both_modes :
    (∃ c, LoadConf forcedDpdkEnv { } "cfg" = .ok c ∧
      c.OrigVfState.HostIFName = "vf1" ∧ c.DPDKMode = true) ∧
    (∃ c, LoadConf carriedNameEnv { } "cfg" = .ok c ∧
      c.OrigVfState.HostIFName = "old0" ∧ c.DPDKMode = true) :=
  ⟨⟨{ sampleConf with
      DPDKMode := true, VFID := 1, Master := "pf0", OrigVfState := { HostIFName := "vf1" } },
      by decide, rfl, rfl⟩,
   ⟨{ sampleConf with
      DPDKMode := true, VFID := 1, Master := "pf0", OrigVfState := { HostIFName := "old0" } },
      by decide, rfl, rfl⟩⟩

/-! ## Lemmas: which calls carry a MAC -/

theorem Grows.refl (P : Event → Prop) (a : List Event) : Grows P a a :=
  ⟨[], by simp, by simp⟩

theorem Grows.trans {P : Event → Prop} {a b c : List Event} (h1 : Grows P a b)
    (h2 : Grows P b c) : Grows P a c := by
  obtain ⟨t1, e1, p1⟩ := h1
  obtain ⟨t2, e2, p2⟩ := h2
  refine ⟨t1 ++ t2, by rw [e2, e1, List.append_assoc], ?_⟩
  intro ev hev
  rcases List.mem_append.1 hev with h | h
  · exact p1 ev h
  · exact p2 ev h

theorem Grows.log {P : Event → Prop} (w : World) (e : Event) (h : P e) :
    Grows P w.trace (w.log e).trace :=
  ⟨[e], rfl, by simpa using h⟩

theorem Grows.of_mem {P Q : Event → Prop} {a b : List Event}
    (h : ∃ t, b = a ++ t ∧ ∀ ev ∈ t, Q ev) (hq : ∀ ev, Q ev → P ev) : Grows P a b := by
  obtain ⟨t, e, q⟩ := h
  exact ⟨t, e, fun ev hev => hq ev (q ev hev)⟩

theorem Grows.since_mem {P : Event → Prop} {w w' : World} (h : Grows P w.trace w'.trace) :
    w'.trace = w.trace ++ w'.since w ∧ ∀ ev ∈ w'.since w, P ev := by
  obtain ⟨t, e, p⟩ := h
  have hs := since_eq_of_trace e
  exact ⟨by rw [hs, e], by rw [hs]; exact p⟩

theorem releaseAddresses_grows (env : Env) (args : CmdArgs) (c : NetConf) (w : World)
    (P : Event → Prop) (hP : ∀ ev, ev.isApplyVFConfig = false → P ev) :
    Grows P w.trace (releaseAddresses env args c w).2.trace :=
  Grows.of_mem (releaseAddresses_trace env args c w) (fun ev h => hP ev (by rw [h]; rfl))

theorem DeleteBridgePort_grows (env : Env) (c : NetConf) (w : World)
    (P : Event → Prop) (hP : ∀ ev, ev.isApplyVFConfig = false → P ev) :
    Grows P w.trace (DeleteBridgePort env c w).2.trace :=
  Grows.of_mem (DeleteBridgePort_trace env c w)
    (fun ev h => hP ev (by rcases h with h | h <;> (rw [h]; rfl)))

theorem releaseAndReset_grows (env : Env) (args : CmdArgs) (c : NetConf) (w : World)
    (P : Event → Prop) (hP : ∀ ev, ev.isApplyVFConfig = false → P ev) :
    Grows P w.trace (releaseAndReset env args c w).2.trace :=
  Grows.of_mem (releaseAndReset_trace env args c w)
    (fun ev h => hP ev (by rcases h with h | h | h <;> (rw [h]; rfl)))

theorem releaseAllocation_grows (env : Env) (c : NetConf) (w : World)
    (P : Event → Prop) (hP : ∀ ev, ev.isApplyVFConfig = false → P ev) :
    Grows P w.trace (releaseAllocation env c w).2.trace :=
  ⟨[.deleteAllocatedPCI c.DeviceID], releaseAllocation_trace env c w, by
    intro ev hev
    simp at hev
    subst hev
    exact hP _ rfl⟩

/-- No call of `deleteResources` is an `ApplyVFConfig` call. -/
theorem deleteResources_grows (env : Env) (args : CmdArgs) (netConf : Option NetConf)
    (w : World) (P : Event → Prop) (hP : ∀ ev, ev.isApplyVFConfig = false → P ev) :
    Grows P w.trace (deleteResources env args netConf w).2.trace := by
  unfold deleteResources
  simp only [ResetVFConfig_snd]
  repeat' split
  all_goals
    repeat' first
      | exact Grows.refl _ _
      | refine Grows.trans ?_ (releaseAllocation_grows _ _ _ P hP)
      | refine Grows.trans ?_ (releaseAndReset_grows _ _ _ _ P hP)
      | refine Grows.trans ?_ (DeleteBridgePort_grows _ _ _ P hP)
      | refine Grows.trans ?_ (releaseAddresses_grows _ _ _ _ P hP)
      | refine Grows.trans ?_ (Grows.log _ _ (hP _ rfl))

theorem configureInNetns_grows (env : Env) (n : String) (w : World)
    (P : Event → Prop) (hP : ∀ ev, ev.isApplyVFConfig = false → P ev) :
    Grows P w.trace (configureInNetns env n w).2.trace := by
  unfold configureInNetns
  simp only
  split
  · exact Grows.log _ _ (hP _ rfl)
  · refine Grows.trans ?_ (Grows.log _ _ (hP _ rfl))
    exact Grows.log _ _ (hP _ rfl)

theorem podMac_grows (env : Env) (args : CmdArgs) (c : NetConf) (w : World)
    (P : Event → Prop) (hP : ∀ ev, ev.isApplyVFConfig = false → P ev) :
    Grows P w.trace (podMac env args c w).2.2.trace := by
  unfold podMac
  simp only [SetupVF_snd]
  repeat' split
  all_goals dsimp only
  all_goals first
    | exact Grows.refl _ _
    | exact Grows.log _ _ (hP _ rfl)

theorem runIPAM_grows (env : Env) (args : CmdArgs) (c : NetConf) (r : Result) (w : World)
    (P : Event → Prop) (hP : ∀ ev, ev.isApplyVFConfig = false → P ev) :
    Grows P w.trace (runIPAM env args c r w).2.trace := by
  unfold runIPAM
  simp only [ExecAdd_snd]
  repeat' split
  all_goals dsimp only
  all_goals first
    | exact Grows.refl _ _
    | exact Grows.log _ _ (hP _ rfl)
    | (refine Grows.trans ?_ (configureInNetns_grows _ _ _ P hP)
       exact Grows.log _ _ (hP _ rfl))

theorem initConnection_grows (env : Env) (c : NetConf) (w : World)
    (P : Event → Prop) (hP : ∀ ev, ev.isApplyVFConfig = false → P ev) :
    Grows P w.trace (initConnection env c w).2.trace := by
  rw [initConnection_snd]
  split
  · exact Grows.refl _ _
  · exact Grows.log _ _ (hP _ rfl)

theorem clientCreateBridgePort_grows (env : Env) (req : CreateBridgePortRequest) (w : World)
    (P : Event → Prop) (hP : ∀ ev, ev.isApplyVFConfig = false → P ev) :
    Grows P w.trace (clientCreateBridgePort env req w).2.trace :=
  ⟨[.createBridgePort req], clientCreateBridgePort_trace env req w, by
    intro ev hev
    simp at hev
    subst hev
    exact hP _ rfl⟩

theorem CreateBridgePort_grows (env : Env) (c : NetConf) (mac : String) (w : World)
    (P : Event → Prop) (hP : ∀ ev, ev.isApplyVFConfig = false → P ev) :
    Grows P w.trace (CreateBridgePort env c mac w).2.2.trace := by
  unfold CreateBridgePort
  simp only
  repeat' split
  all_goals first
    | exact initConnection_grows _ _ _ P hP
    | exact Grows.trans (initConnection_grows _ _ _ P hP)
        (clientCreateBridgePort_grows _ _ _ P hP)

theorem SaveAllocatedPCI_grows (env : Env) (d n : String) (w : World)
    (P : Event → Prop) (hP : ∀ ev, ev.isApplyVFConfig = false → P ev) :
    Grows P w.trace (SaveAllocatedPCI env d n w).2.trace :=
  ⟨[.saveAllocatedPCI d n], SaveAllocatedPCI_trace env d n w, by
    intro ev hev
    simp at hev
    subst hev
    exact hP _ rfl⟩

theorem SaveNetConf_grows (env : Env) (args : CmdArgs) (c : NetConf) (w : World)
    (P : Event → Prop) (hP : ∀ ev, ev.isApplyVFConfig = false → P ev) :
    Grows P w.trace (SaveNetConf env args c w).2.trace :=
  ⟨[.saveNetConf (cRefPathOf args)], SaveNetConf_trace env args c w, by
    intro ev hev
    simp at hev
    subst hev
    exact hP _ rfl⟩

/-- The only `ApplyVFConfig` call `cmdAddSteps` can make is the one for the configuration it is
given, with that configuration's MAC. -/
theorem cmdAddSteps_grows (env : Env) (args : CmdArgs) (c : NetConf) (w : World)
    (P : Event → Prop) (hP : ∀ ev, ev.isApplyVFConfig = false → P ev)
    (ha : P (.applyVFConfig c.DeviceID c.MAC)) :
    Grows P w.trace (cmdAddSteps env args c w).world.trace := by
  unfold cmdAddSteps
  simp only [nsGetNS_snd, FillOriginalVfInfo_snd, ApplyVFConfig_snd, PrintResult_snd]
  repeat' split
  all_goals
    repeat' first
      | exact Grows.refl _ _
      | refine Grows.trans ?_ (SaveNetConf_grows _ _ _ _ P hP)
      | refine Grows.trans ?_ (SaveAllocatedPCI_grows _ _ _ _ P hP)
      | refine Grows.trans ?_ (runIPAM_grows _ _ _ _ _ P hP)
      | refine Grows.trans ?_ (CreateBridgePort_grows _ _ _ _ P hP)
      | refine Grows.trans ?_ (podMac_grows _ _ _ _ P hP)
      | refine Grows.trans ?_ (Grows.log _ _ (hP _ rfl))
      | refine Grows.trans ?_ (Grows.log _ _ ha)

/-- Once the namespace opens and the VF state is read, `cmdAddSteps` makes the `ApplyVFConfig`
call for the configuration it is given. -/
theorem cmdAddSteps_applies (env : Env) (args : CmdArgs) (c : NetConf) (w : World)
    (ho : (nsGetNS env args.Netns w).1 = .opened)
    (hf : (sriov.FillOriginalVfInfo env c (w.log (.getNS args.Netns))).1 = none) :
    Grows (fun _ => True)
      (((w.log (.getNS args.Netns)).log (.fillOriginalVfInfo c.DeviceID)).log
        (.applyVFConfig c.DeviceID c.MAC)).trace
      (cmdAddSteps env args c w).world.trace := by
  unfold cmdAddSteps
  simp only [nsGetNS_snd, FillOriginalVfInfo_snd, ApplyVFConfig_snd, PrintResult_snd, ho, hf]
  repeat' split
  all_goals
    repeat' first
      | exact Grows.refl _ _
      | refine Grows.trans ?_ (SaveNetConf_grows _ _ _ _ _ (fun _ _ => trivial))
      | refine Grows.trans ?_ (SaveAllocatedPCI_grows _ _ _ _ _ (fun _ _ => trivial))
      | refine Grows.trans ?_ (runIPAM_grows _ _ _ _ _ _ (fun _ _ => trivial))
      | refine Grows.trans ?_ (CreateBridgePort_grows _ _ _ _ _ (fun _ _ => trivial))
      | refine Grows.trans ?_ (podMac_grows _ _ _ _ _ (fun _ _ => trivial))
      | refine Grows.trans ?_ (Grows.log _ _ trivial)

theorem applyMacOverrides_MAC (c : NetConf) (ea : Option EnvArgs) :
    (applyMacOverrides c ea).MAC = macByPrecedence c ea := by
  unfold applyMacOverrides macByPrecedence
  simp only
  repeat' split
  all_goals simp_all

/-- The frame of `cmdAddBody` when resolution and the side-channel arguments succeed. -/
theorem cmdAddBody_steps (env : Env) (args : CmdArgs) (w : World) (c : NetConf)
    (ea : Option EnvArgs) (hl : LoadConf env w args.StdinData = .ok c)
    (hg : getEnvArgs env args.Args = .ok ea) :
    cmdAddBody env args w = cmdAddSteps env args (applyMacOverrides c ea) w := by
  simp [cmdAddBody, hl, hg]

/-- Every call `cmdAdd` makes satisfies `P`, when `P` holds of every call other than
`ApplyVFConfig` and of the `ApplyVFConfig` call for the resolved configuration with the MAC
overrides applied. -/
theorem cmdAdd_grows (env : Env) (args : CmdArgs) (w : World) (P : Event → Prop)
    (hP : ∀ ev, ev.isApplyVFConfig = false → P ev)
    (ha : ∀ c ea, LoadConf env w args.StdinData = .ok c → getEnvArgs env args.Args = .ok ea →
      P (.applyVFConfig (applyMacOverrides c ea).DeviceID (applyMacOverrides c ea).MAC)) :
    Grows P w.trace (cmdAdd env args w).world.trace := by
  have hbody : Grows P w.trace (cmdAddBody env args w).world.trace := by
    rcases hl : LoadConf env w args.StdinData with e | c
    · simp only [cmdAddBody, hl]
      exact Grows.refl _ _
    · rcases hg : getEnvArgs env args.Args with e | ea
      · simp only [cmdAddBody, hl, hg]
        exact Grows.refl _ _
      · rw [cmdAddBody_steps env args w c ea hl hg]
        exact cmdAddSteps_grows env args _ w P hP (ha c ea hl hg)
  by_cases herr : (cmdAddBody env args w).err = true
  · rw [cmdAdd_of_err env args w herr]
    exact Grows.trans hbody (deleteResources_grows env args _ _ P hP)
  · simp only [Bool.not_eq_true] at herr
    rw [cmdAdd_of_not_err env args w herr]
    exact hbody

/-- A runtime MAC the request payload carries is the runtime MAC of the configuration
`LoadConf` returns: the merge fills only unset fields and resolution leaves the field alone. -/
theorem LoadConf_runtime_mac (env : Env) (w : World) (bytes : String) (p c : NetConf)
    (hp : loadNetConf env bytes = .ok p) (hl : LoadConf env w bytes = .ok c)
    (hm : p.RuntimeConfig.Mac ≠ "") : c.RuntimeConfig.Mac = p.RuntimeConfig.Mac := by
  unfold LoadConf loadMerged at hl
  simp only [hp] at hl
  rcases hf : loadFlatNetConf env p.ConfigurationPath with e | flat
  · simp [hf] at hl
  · simp only [hf, mergeConf] at hl
    obtain ⟨_, _, hr, _⟩ := resolveConf_ok_fields env w _ c hl
    rw [hr]
    simp [mergoMerge, mergeString, hm]

/-! ## Theorems: the MAC applied to the VF -/

/-- C13: the MAC of the configuration `cmdAdd` passes to `ApplyVFConfig` is the one the stated
precedence gives: a non-empty `RuntimeConfig.Mac` of the resolved configuration, otherwise a
non-empty MAC of the side-channel arguments, otherwise the MAC of the resolved configuration.
Every `ApplyVFConfig` call an ADD makes is for the resolved device with that MAC, and the call
is made once the namespace has been opened and the VF state read. A runtime MAC carried by the
request payload is the `RuntimeConfig.Mac` of the resolved configuration. -/
theorem cmdAdd_mac_precedence (env : Env) (args : CmdArgs) (w : World) :
    (∀ c ea, (applyMacOverrides c ea).MAC = macByPrecedence c ea) ∧
    (cmdAdd env args w).world.trace = w.trace ++ (cmdAdd env args w).world.since w ∧
    (∀ d m, Event.applyVFConfig d m ∈ (cmdAdd env args w).world.since w →
      ∃ c ea, LoadConf env w args.StdinData = .ok c ∧ getEnvArgs env args.Args = .ok ea ∧
        d = c.DeviceID ∧ m = macByPrecedence c ea) ∧
    (∀ c ea, LoadConf env w args.StdinData = .ok c → getEnvArgs env args.Args = .ok ea →
      (nsGetNS env args.Netns w).1 = .opened →
      (sriov.FillOriginalVfInfo env (applyMacOverrides c ea) (w.log (.getNS args.Netns))).1
        = none →
      Event.applyVFConfig c.DeviceID (macByPrecedence c ea)
        ∈ (cmdAdd env args w).world.since w) ∧
    (∀ p c, loadNetConf env args.StdinData = .ok p → LoadConf env w args.StdinData = .ok c →
      p.RuntimeConfig.Mac ≠ "" → c.RuntimeConfig.Mac = p.RuntimeConfig.Mac) := by
  have hg := cmdAdd_grows env args w
    (fun ev => ∀ d m, ev = Event.applyVFConfig d m →
      ∃ c ea, LoadConf env w args.StdinData = .ok c ∧ getEnvArgs env args.Args = .ok ea ∧
        d = c.DeviceID ∧ m = macByPrecedence c ea)
    (by
      intro ev hev d m he
      subst he
      simp [Event.isApplyVFConfig] at hev)
    (by
      intro c ea hl hge d m he
      simp only [Event.applyVFConfig.injEq] at he
      exact ⟨c, ea, hl, hge, by rw [← he.1, applyMacOverrides_DeviceID],
        by rw [← he.2, applyMacOverrides_MAC]⟩)
  obtain ⟨htrace, hmem⟩ := Grows.since_mem hg
  refine ⟨applyMacOverrides_MAC, htrace, fun d m h => hmem _ h d m rfl, ?_,
    fun p c hp hl hm => LoadConf_runtime_mac env w _ p c hp hl hm⟩
  intro c ea hl hge ho hf
  have hsteps := cmdAddSteps_applies env args (applyMacOverrides c ea) w ho hf
  rw [← cmdAddBody_steps env args w c ea hl hge] at hsteps
  have hall : Grows (fun _ => True)
      (((w.log (.getNS args.Netns)).log
          (.fillOriginalVfInfo (applyMacOverrides c ea).DeviceID)).log
        (.applyVFConfig (applyMacOverrides c ea).DeviceID (applyMacOverrides c ea).MAC)).trace
      (cmdAdd env args w).world.trace := by
    by_cases herr : (cmdAddBody env args w).err = true
    · rw [cmdAdd_of_err env args w herr]
      exact Grows.trans hsteps (deleteResources_grows env args _ _ _ (fun _ _ => trivial))
    · simp only [Bool.not_eq_true] at herr
      rw [cmdAdd_of_not_err env args w herr]
      exact hsteps
  obtain ⟨t, ht, _⟩ := hall
  have hs : (cmdAdd env args w).world.since w
      = [.getNS args.Netns, .fillOriginalVfInfo (applyMacOverrides c ea).DeviceID,
          .applyVFConfig (applyMacOverrides c ea).DeviceID (applyMacOverrides c ea).MAC]
        ++ t := by
    apply since_eq_of_trace
    rw [ht]
    simp
  rw [hs, applyMacOverrides_DeviceID, applyMacOverrides_MAC]
  simp

/-- An ADD whose request carries the runtime MAC `m-rt` and whose side-channel arguments carry
`m-env`, and one whose request has no runtime MAC: the VF gets `m-rt` in the first and `m-env` in
the second, not the configured `m-conf`. -/
theorem cmdAdd_mac_precedence_witness :
    Event.applyVFConfig "d1" "m-rt" ∈ (cmdAdd macEnv macArgs { }).world.since { } ∧
    Event.applyVFConfig "d1" "m-env" ∈ (cmdAdd envMacEnv macArgs { }).world.since { } ∧
    Event.applyVFConfig "d1" "m-conf" ∈ (cmdAdd envMacEnv sampleArgs { }).world.since { } ∧
    ∃ c ea, LoadConf macEnv { } macArgs.StdinData = .ok c ∧
      getEnvArgs macEnv macArgs.Args = .ok ea ∧ "d1" = c.DeviceID ∧
      "m-rt" = macByPrecedence c ea :=
  ⟨by decide, by decide, by decide,
    (cmdAdd_mac_precedence macEnv macArgs { }).2.2.1 "d1" "m-rt" (by decide)⟩

end OpiCni
